import Mathlib

/-!
Formal model of the ContentPilot workflow core, shallowly embedded from the
TypeScript sources:

* the result verifier (`src/lib/server/workflow-verifier.ts`),
* the task registry (`src/lib/server/task-registry.ts`),
* the workflow runner (`executeWorkflowRun` and its stage adapters in
  `src/lib/server/workflow-runner.ts`),
* the run entry point (`app/api/workflow/run/route.ts`) and the research
  endpoint's input validation (`app/api/research/start/route.ts`).

JavaScript idioms are modelled explicitly: string falsiness (`x || d`),
`Number.isFinite` / `Math.round` / `Math.floor` / `Math.max` over an explicit
JS-number type (NaN and the infinities as separate constructors, finite values
as rationals), `String.prototype.split` on a single-character separator at the
character-list level, and shallow object spread as keyed overrides.

The six stage executors perform outbound HTTP calls; those calls are modelled
as an abstract `StageEnv` of oracles returning either a parsed success payload
or the thrown `"<CODE>:<detail>"` message, while every piece of control flow
around them (input validation, verification gates, bundle folding, step-log
bookkeeping, early return on failure) is translated from the source.
-/

namespace ContentPilot

/-- JS `a || b` for strings: the empty string is falsy. -/
def jsOr (a b : String) : String := if a = "" then b else a

/-- JS `x || d` where `x` may be `undefined` (modelled as `none`). -/
def jsOrOpt (a : Option String) (d : String) : String :=
  match a with
  | some s => jsOr s d
  | none => d

/-- The JS WhiteSpace / LineTerminator set recognised by
`String.prototype.trim`. -/
def isJsWhitespace (c : Char) : Bool :=
  c.toNat = 0x09 || c.toNat = 0x0A || c.toNat = 0x0B || c.toNat = 0x0C || c.toNat = 0x0D
    || c.toNat = 0x20 || c.toNat = 0xA0 || c.toNat = 0x1680
    || (0x2000 ≤ c.toNat && c.toNat ≤ 0x200A)
    || c.toNat = 0x2028 || c.toNat = 0x2029 || c.toNat = 0x202F || c.toNat = 0x205F
    || c.toNat = 0x3000 || c.toNat = 0xFEFF

/-- JS `String.prototype.trim`: strip leading and trailing whitespace. -/
def jsTrim (s : String) : String :=
  ⟨((s.data.dropWhile isJsWhitespace).reverse.dropWhile isJsWhitespace).reverse⟩

/-! ### JS numbers

`progress` and `limit` flow through `Number.isFinite`, `Math.round`,
`Math.floor` and `Math.max`, so the model keeps NaN and the infinities
explicit; finite doubles are represented as rationals. -/

/-- A JavaScript number: NaN, +Infinity, -Infinity, or a finite value. -/
inductive JSNum where
  | nan : JSNum
  | posInf : JSNum
  | negInf : JSNum
  | num (q : ℚ) : JSNum
deriving DecidableEq, Repr

/-- JS `Number.isFinite`. -/
def JSNum.isFinite : JSNum → Bool
  | .num _ => true
  | _ => false

/-- JS `Math.round` on a finite value: round half toward positive infinity. -/
def jsRound (q : ℚ) : ℤ := ⌊q + 1 / 2⌋

/-- JS `Math.floor` (NaN and infinities propagate). -/
def JSNum.floor : JSNum → JSNum
  | .num q => .num (⌊q⌋ : ℤ)
  | x => x

/-- JS `Math.max` of two numbers (NaN propagates). -/
def JSNum.max2 : JSNum → JSNum → JSNum
  | .nan, _ => .nan
  | _, .nan => .nan
  | .posInf, _ => .posInf
  | _, .posInf => .posInf
  | .negInf, y => y
  | x, .negInf => x
  | .num a, .num b => .num (max a b)

/-! ## Verifier (`src/lib/server/workflow-verifier.ts`)

The verifier functions are pure. Their TS input types mark several fields
optional, but every call site in this repository (the workflow runner and the
stage routes) supplies fully populated records, so the model uses the runner's
concrete record types; the `x || ""` / `Array.isArray` defaults of the source
collapse accordingly and are kept where an absent record (`row?.body`) can
still occur. -/

/-- One entry of a `WorkflowValidationResult` checklist. -/
structure WorkflowValidationCheck where
  key : String
  passed : Bool
  message : String
deriving DecidableEq, Repr

/-- `{ok, checks}` as produced by `buildResult`. -/
structure WorkflowValidationResult where
  ok : Bool
  checks : List WorkflowValidationCheck
deriving DecidableEq, Repr

/-- `buildResult`: `ok` iff every check passed. -/
def buildResult (checks : List WorkflowValidationCheck) : WorkflowValidationResult :=
  { ok := checks.all (fun item => item.passed), checks := checks }

/-- A research source; the verifier only inspects the count of sources. -/
structure ResearchSource where
  title : String
  url : String
  snippet : Option String := none
  publishedAt : Option String := none
  publisher : Option String := none
  score : Option ℚ := none
deriving DecidableEq, Repr

/-- The research insight record produced by the research stage. -/
structure ResearchInsight where
  summary : String
  risks : List String := []
  angles : List String := []
  recommendedTitles : List String := []
deriving DecidableEq, Repr

/-- `verifyResearchResult`: at least one source, non-empty trimmed insight
summary, and at least one recommended title. -/
def verifyResearchResult (sources : List ResearchSource) (insight : ResearchInsight) :
    WorkflowValidationResult :=
  buildResult
    [ { key := "research.sources.min"
        passed := decide (0 < sources.length)
        message := if 0 < sources.length then "At least one source exists."
          else "No sources were generated." }
    , { key := "research.insight.summary"
        passed := decide (jsTrim insight.summary ≠ "")
        message := if jsTrim insight.summary ≠ "" then "Insight summary is available."
          else "Insight summary is empty." }
    , { key := "research.insight.titles"
        passed := decide (0 < insight.recommendedTitles.length)
        message := if 0 < insight.recommendedTitles.length then "Recommended titles are available."
          else "Recommended titles are missing." } ]

/-- `verifyDraftResult`: non-empty content of trimmed length at least 200.
(JS measures UTF-16 code units; `String.length` counts code points, which
agrees on all content this repository produces.) -/
def verifyDraftResult (content : String) : WorkflowValidationResult :=
  buildResult
    [ { key := "draft.content.non_empty"
        passed := decide (0 < (jsTrim content).length)
        message := if 0 < (jsTrim content).length then "Draft content exists."
          else "Draft content is empty." }
    , { key := "draft.content.min_chars"
        passed := decide (200 ≤ (jsTrim content).length)
        message := if 200 ≤ (jsTrim content).length then "Draft length is sufficient."
          else "Draft is too short (< 200 chars)." } ]

/-- A per-platform rewrite variant (the runner's concrete record type). -/
structure RewriteVariant where
  titleCandidates : List String
  body : String
  hashtags : List String := []
deriving DecidableEq, Repr

/-- JS `input.variants[platform]`: string-keyed record lookup. The record is
modelled as an association list with unique keys in insertion order. -/
def lookupVariant (variants : List (String × RewriteVariant)) (platform : String) :
    Option RewriteVariant :=
  (variants.find? (fun kv => kv.1 == platform)).map (fun kv => kv.2)

/-- `row?.body || ""` for an optional row. -/
def rowBody (row : Option RewriteVariant) : String :=
  match row with
  | some v => v.body
  | none => ""

/-- `Array.isArray(row?.titleCandidates) && row.titleCandidates.length > 0`. -/
def rowHasTitle (row : Option RewriteVariant) : Bool :=
  match row with
  | some v => decide (0 < v.titleCandidates.length)
  | none => false

/-- The two checks `verifyRewriteResult` pushes for one required platform. -/
def rewritePlatformChecks (variants : List (String × RewriteVariant)) (platform : String) :
    List WorkflowValidationCheck :=
  let row := lookupVariant variants platform
  let hasBody : Bool := decide (jsTrim (rowBody row) ≠ "")
  let hasTitle : Bool := rowHasTitle row
  [ { key := "rewrite." ++ platform ++ ".body"
      passed := hasBody
      message := if hasBody then platform ++ " body exists." else platform ++ " body is missing." }
  , { key := "rewrite." ++ platform ++ ".title"
      passed := hasTitle
      message := if hasTitle then platform ++ " title candidates exist."
        else platform ++ " title candidates are missing." } ]

/-- `verifyRewriteResult`: one `rewrite.variants.min` check, then two checks
(body, title) per required platform, combined by `buildResult`. -/
def verifyRewriteResult (variants : List (String × RewriteVariant))
    (requiredPlatforms : List String) : WorkflowValidationResult :=
  buildResult
    ({ key := "rewrite.variants.min"
       passed := decide (0 < variants.length)
       message := if 0 < variants.length then "At least one variant exists."
         else "No variants were generated." } ::
      requiredPlatforms.flatMap (rewritePlatformChecks variants))

/-- `verifyAssetResult`: trimmed image URL and provider both non-empty. -/
def verifyAssetResult (imageUrl provider : String) : WorkflowValidationResult :=
  buildResult
    [ { key := "asset.image.url"
        passed := decide (0 < (jsTrim imageUrl).length)
        message := if 0 < (jsTrim imageUrl).length then "Image URL exists."
          else "Image URL is empty." }
    , { key := "asset.provider"
        passed := decide (0 < (jsTrim provider).length)
        message := if 0 < (jsTrim provider).length then "Provider exists."
          else "Provider is empty." } ]

/-- JS truthiness of an optional string (`Boolean(x)`). -/
def optTruthy (x : Option String) : Bool :=
  match x with
  | some s => decide (s ≠ "")
  | none => false

/-- `verifyPublishResult`: post id truthy, trimmed status and edit URL
non-empty. (`postId` may be a string or a number in TS; both call sites of
this repository pass strings, so it is modelled as an optional string.) -/
def verifyPublishResult (postId editUrl status : Option String) : WorkflowValidationResult :=
  buildResult
    [ { key := "publish.post_id"
        passed := optTruthy postId
        message := if optTruthy postId then "Post id exists." else "Post id is missing." }
    , { key := "publish.status"
        passed := decide (jsTrim (jsOrOpt status "") ≠ "")
        message := if jsTrim (jsOrOpt status "") ≠ "" then "Status exists."
          else "Status is missing." }
    , { key := "publish.edit_url"
        passed := decide (jsTrim (jsOrOpt editUrl "") ≠ "")
        message := if jsTrim (jsOrOpt editUrl "") ≠ "" then "Edit URL exists."
          else "Edit URL is missing." } ]

/-! ## Workflow runner data model (`src/lib/server/workflow-runner.ts`) -/

/-- The six pipeline stages, in fixed order. -/
inductive WorkflowStepKey where
  | research | draft | rewrite | assets | publish | analytics
deriving DecidableEq, Repr

/-- Step status of one step-log entry. -/
inductive WorkflowStepStatus where
  | PENDING | RUNNING | COMPLETED | FAILED | SKIPPED
deriving DecidableEq, Repr

/-- `STEP_ORDER`: the fixed six-stage order. -/
def STEP_ORDER : List WorkflowStepKey :=
  [.research, .draft, .rewrite, .assets, .publish, .analytics]

/-- `DEFAULT_PLATFORMS`. -/
def DEFAULT_PLATFORMS : List String := ["WECHAT", "XIAOHONGSHU", "WEIBO", "BILIBILI"]

/-- One step-log entry. Timestamps are abstracted to readings of a
monotonically increasing counter (one tick per `new Date()` call); the
source stores ISO strings of wall-clock instants, and `durationMs` is the
difference of the two readings taken around the stage executor call. -/
structure WorkflowStepLog where
  step : WorkflowStepKey
  status : WorkflowStepStatus
  retryCount : Nat
  startedAt : Option Nat := none
  endedAt : Option Nat := none
  durationMs : Option Nat := none
  provider : Option String := none
  errorCode : Option String := none
  errorMessage : Option String := none
  validation : Option WorkflowValidationResult := none
deriving DecidableEq, Repr

/-- `bundle.research`. The `attempts` array carries opaque provider records;
their contents are never inspected by the runner, so each is an opaque token. -/
structure ResearchData where
  provider : String
  sources : List ResearchSource
  insight : ResearchInsight
  attempts : List String := []
deriving DecidableEq, Repr

/-- `bundle.draft`. -/
structure DraftData where
  content : String
  warnings : List String := []
deriving DecidableEq, Repr

/-- One entry of `bundle.rewrite.errors`. -/
structure RewriteError where
  platform : String
  message : String
deriving DecidableEq, Repr

/-- `bundle.rewrite`: the per-platform variants record (association list with
unique keys in insertion order) plus per-platform error notes. -/
structure RewriteData where
  variants : List (String × RewriteVariant)
  errors : List RewriteError := []
deriving DecidableEq, Repr

/-- `bundle.assets`. -/
structure AssetsData where
  imageUrl : String
  provider : String
  note : Option String := none
deriving DecidableEq, Repr

/-- `bundle.publish`. -/
structure PublishData where
  mode : Option String := none
  postId : Option String := none
  editUrl : Option String := none
  status : Option String := none
  message : Option String := none
deriving DecidableEq, Repr

/-- `bundle.finalOutput` (the derived summary record). -/
structure FinalOutput where
  summary : String
  titleCandidates : List String
  platformCount : Nat
  hasAsset : Bool
  publishStatus : String
deriving DecidableEq, Repr

/-- The accumulating `WorkflowBundle`. `analytics` is an opaque JSON record
(`Record<string, unknown>`), modelled as an association list of opaque
values; the runner never reads its contents. -/
structure WorkflowBundle where
  projectId : String
  topic : String
  researchTool : Option String := none
  timeWindow : String
  tone : String
  audience : String
  length : String
  platforms : List String
  research : Option ResearchData := none
  draft : Option DraftData := none
  rewrite : Option RewriteData := none
  assets : Option AssetsData := none
  publish : Option PublishData := none
  analytics : Option (List (String × String)) := none
  finalOutput : Option FinalOutput := none
deriving DecidableEq, Repr

/-- `WorkflowRunOptions`. `origin` and `traceId` only shape outbound request
URLs/headers inside the abstracted HTTP calls. Optional fields use `none`
for an absent (`undefined`) value. -/
structure WorkflowRunOptions where
  origin : String := ""
  projectId : String
  topic : String
  researchTool : Option String := none
  timeWindow : Option String := none
  tone : Option String := none
  audience : Option String := none
  length : Option String := none
  platforms : Option (List String) := none
  generateAsset : Option Bool := none
  publishToWordpress : Option Bool := none
  traceId : Option String := none
  idempotencyKey : Option String := none
  resumeTaskId : Option String := none
deriving DecidableEq, Repr

/-- Run outcome tag (`"COMPLETED" | "FAILED"`). -/
inductive WorkflowRunStatus where
  | COMPLETED | FAILED
deriving DecidableEq, Repr

/-- `WorkflowRunResult` minus `taskId` (task-id resolution
`resumeTaskId || idempotencyKey || createRequestId()` draws randomness and
carries no information used by any claim). -/
structure WorkflowRunResult where
  status : WorkflowRunStatus
  failedStep : Option WorkflowStepKey := none
  recoverable : Bool
  steps : List WorkflowStepLog
  bundle : WorkflowBundle
deriving DecidableEq, Repr

/-! ## Runner pure helpers -/

/-- `aggregateFinalOutput`: the derived summary, computed with JS `||`
falsiness (an empty research summary falls back to the topic, an absent or
empty publish status becomes `"not_published"`). -/
def aggregateFinalOutput (bundle : WorkflowBundle) : FinalOutput :=
  { summary :=
      jsOr (match bundle.research with | some r => r.insight.summary | none => "") bundle.topic
    titleCandidates :=
      match bundle.research with | some r => r.insight.recommendedTitles | none => []
    platformCount := match bundle.rewrite with | some r => r.variants.length | none => 0
    hasAsset := match bundle.assets with | some a => decide (a.imageUrl ≠ "") | none => false
    publishStatus :=
      jsOr (match bundle.publish with | some p => jsOrOpt p.status "" | none => "")
        "not_published" }

/-- A fresh `PENDING` step-log entry for one stage. -/
def freshStep (k : WorkflowStepKey) : WorkflowStepLog :=
  { step := k, status := .PENDING, retryCount := 0 }

/-- `initSteps`: the fixed-order base log, overlaid with any previously
persisted entries keyed by step. The source builds a JS `Map` from the
persisted list, so on duplicate step keys the last occurrence wins. -/
def initSteps (fromSteps : Option (List WorkflowStepLog)) : List WorkflowStepLog :=
  let base := STEP_ORDER.map freshStep
  match fromSteps with
  | none => base
  | some l =>
    if l.length = 0 then base
    else base.map (fun item =>
      match l.reverse.find? (fun x => x.step == item.step) with
      | some found => found
      | none => item)

/-- `findResumeIndex`: first `FAILED` step; else first `PENDING`/`RUNNING`
step; else 0. -/
def findResumeIndex (steps : List WorkflowStepLog) : Nat :=
  match steps.findIdx? (fun step => step.status == .FAILED) with
  | some i => i
  | none =>
    match steps.findIdx? (fun step =>
        step.status == .PENDING || step.status == .RUNNING) with
    | some i => i
    | none => 0

/-- JS `String.prototype.split` with a single-character separator, at the
character-list level: the (non-empty) list of separator-free segments. -/
def jsSplitChar (sep : Char) : List Char → List (List Char)
  | [] => [[]]
  | c :: cs =>
    match jsSplitChar sep cs with
    | [] => [[]]
    | seg :: segs => if c = sep then [] :: seg :: segs else (c :: seg) :: segs

/-- JS `Array.prototype.join` with a single-character separator. -/
def jsJoinChar (sep : Char) : List (List Char) → List Char
  | [] => []
  | [x] => x
  | x :: xs => x ++ sep :: jsJoinChar sep xs

/-- The catch-block parsing of a thrown `"<CODE>:<detail>"` message:
`const [code, ...rest] = message.split(":")`, then
`errorCode = code || "UNKNOWN_ERROR"` and
`errorMessage = rest.join(":") || message`. -/
def splitErrorMessage (message : String) : String × String :=
  let parts := jsSplitChar ':' message.data
  let code : String := ⟨parts.headD []⟩
  let restJoined : String := ⟨jsJoinChar ':' parts.tail⟩
  (jsOr code "UNKNOWN_ERROR", jsOr restJoined message)

/-! ## Stage adapters

Each `run<Stage>` function performs one outbound HTTP call (plus SSE/JSON
parsing) and then pure control flow: verification gating, bundle folding, and
provider naming. The HTTP call and parsing are abstracted as an oracle in
`StageEnv`, returning either the parsed success payload or the thrown
`"<CODE>:<detail>"` message (the oracle covers both `!response.ok` handling
via `extractApiError` and in-stream `type:"error"` events). Everything after
the oracle is translated from the source. -/

/-- A successful stage call: the provider name/validation reported by the
stage, and the bundle with the stage's sub-record folded in. -/
structure StageOutcome where
  provider : String
  validation : WorkflowValidationResult
  bundle : WorkflowBundle
deriving DecidableEq, Repr

/-- Parsed success payload of `POST /api/research/start` as consumed by
`runResearch` (provider, collected sources, insight, attempts). -/
structure ResearchApiOk where
  provider : String
  sources : List ResearchSource
  insight : ResearchInsight
  attempts : List String := []
deriving DecidableEq, Repr

/-- Parsed success payload of `POST /api/draft/generate`. -/
structure DraftApiOk where
  content : String
  warnings : List String := []
deriving DecidableEq, Repr

/-- Parsed success payload of `POST /api/rewrite/generate`. -/
structure RewriteApiOk where
  variants : List (String × RewriteVariant)
  errors : List RewriteError := []
deriving DecidableEq, Repr

/-- Parsed success payload of `POST /api/assets/generate-image`. -/
structure AssetApiOk where
  imageUrl : String
  provider : String
  note : Option String := none
deriving DecidableEq, Repr

/-- Parsed success payload of `POST /api/publish/wordpress-draft`. -/
structure PublishApiOk where
  mode : Option String := none
  postId : Option String := none
  editUrl : Option String := none
  status : Option String := none
  message : Option String := none
deriving DecidableEq, Repr

/-- The outbound-call oracles. Each takes the bundle the stage reads its
request payload from and yields the parsed response, or the thrown
`"<CODE>:<detail>"` message on HTTP/stream failure. -/
structure StageEnv where
  researchApi : WorkflowBundle → Except String ResearchApiOk
  draftApi : WorkflowBundle → Except String DraftApiOk
  rewriteApi : WorkflowBundle → Except String RewriteApiOk
  assetApi : WorkflowBundle → Except String AssetApiOk
  publishApi : WorkflowBundle → Except String PublishApiOk
  analyticsApi : WorkflowBundle → Except String (List (String × String))

/-- `runResearch`. The research endpoint trims `body.query` (sent as
`bundle.topic`) and rejects an empty query with a 400
`{error: {code: "VALIDATION_ERROR", message: "query is required"}}`
(`app/api/research/start/route.ts`), which `extractApiError` turns into the
thrown message `"VALIDATION_ERROR:query is required"`; that deterministic
guard is kept concrete in front of the oracle. A verifier failure raises
`"VALIDATION_ERROR:research result incomplete"`. -/
def runResearch (env : StageEnv) (bundle : WorkflowBundle) : Except String StageOutcome :=
  if jsTrim bundle.topic = "" then
    .error "VALIDATION_ERROR:query is required"
  else
    match env.researchApi bundle with
    | .error e => .error e
    | .ok r =>
      if !(verifyResearchResult r.sources r.insight).ok then
        .error "VALIDATION_ERROR:research result incomplete"
      else
        .ok { provider := r.provider
              validation := verifyResearchResult r.sources r.insight
              bundle := { bundle with research := some {
                  provider := r.provider, sources := r.sources
                  insight := r.insight, attempts := r.attempts } } }

/-- `runDraft`: verifier failure raises
`"VALIDATION_ERROR:draft result incomplete"`; provider is `"fallback"` when
the stream reported warnings, `"llm"` otherwise. -/
def runDraft (env : StageEnv) (bundle : WorkflowBundle) : Except String StageOutcome :=
  match env.draftApi bundle with
  | .error e => .error e
  | .ok d =>
    if !(verifyDraftResult d.content).ok then .error "VALIDATION_ERROR:draft result incomplete"
    else
      .ok { provider := if 0 < d.warnings.length then "fallback" else "llm"
            validation := verifyDraftResult d.content
            bundle := { bundle with draft := some { content := d.content, warnings := d.warnings } } }

/-- `runRewrite`: verification runs against `bundle.platforms` as the
required platforms; failure raises `"VALIDATION_ERROR:rewrite result
incomplete"`. -/
def runRewrite (env : StageEnv) (bundle : WorkflowBundle) : Except String StageOutcome :=
  match env.rewriteApi bundle with
  | .error e => .error e
  | .ok r =>
    if !(verifyRewriteResult r.variants bundle.platforms).ok then
      .error "VALIDATION_ERROR:rewrite result incomplete"
    else
      .ok { provider := "llm"
            validation := verifyRewriteResult r.variants bundle.platforms
            bundle := { bundle with rewrite := some { variants := r.variants, errors := r.errors } } }

/-- `runAssets`: when `generateAsset` is not `true`, short-circuits without
any outbound call to the skip sentinel (validation of
`{imageUrl: "skipped://asset", provider: "skipped"}`, bundle record with an
empty `imageUrl`); otherwise calls the image endpoint and gates on
`verifyAssetResult`. -/
def runAssets (env : StageEnv) (generateAsset : Option Bool) (bundle : WorkflowBundle) :
    Except String StageOutcome :=
  if generateAsset ≠ some true then
    .ok { provider := "skipped"
          validation := verifyAssetResult "skipped://asset" "skipped"
          bundle := { bundle with assets := some {
              imageUrl := "", provider := "skipped"
              note := some "asset step skipped by workflow option" } } }
  else
    match env.assetApi bundle with
    | .error e => .error e
    | .ok a =>
      if !(verifyAssetResult a.imageUrl a.provider).ok then
        .error "VALIDATION_ERROR:asset result incomplete"
      else
        .ok { provider := jsOr a.provider "image-api"
              validation := verifyAssetResult a.imageUrl a.provider
              bundle := { bundle with assets := some {
                  imageUrl := a.imageUrl, provider := a.provider, note := a.note } } }

/-- `runPublish`: when `publishToWordpress` is not `true`, short-circuits to
the skip sentinel; otherwise calls the publish endpoint, gates on
`verifyPublishResult`, and names the provider `"wordpress-mock"` exactly when
the response mode is `"mock"`. -/
def runPublish (env : StageEnv) (publishToWordpress : Option Bool) (bundle : WorkflowBundle) :
    Except String StageOutcome :=
  if publishToWordpress ≠ some true then
    .ok { provider := "skipped"
          validation := verifyPublishResult (some "skipped") (some "skipped://publish") (some "skipped")
          bundle := { bundle with publish := some {
              mode := some "skipped", status := some "skipped"
              message := some "publish step skipped by workflow option" } } }
  else
    match env.publishApi bundle with
    | .error e => .error e
    | .ok p =>
      if !(verifyPublishResult p.postId p.editUrl p.status).ok then
        .error "VALIDATION_ERROR:publish result incomplete"
      else
        .ok { provider := if p.mode = some "mock" then "wordpress-mock" else "wordpress-live"
              validation := verifyPublishResult p.postId p.editUrl p.status
              bundle := { bundle with publish := some {
                  mode := p.mode, postId := p.postId, editUrl := p.editUrl
                  status := p.status, message := p.message } } }

/-- `runAnalytics`: folds the summary into the bundle and reports a fixed
always-passing validation. -/
def runAnalytics (env : StageEnv) (bundle : WorkflowBundle) : Except String StageOutcome :=
  match env.analyticsApi bundle with
  | .error e => .error e
  | .ok data =>
    .ok { provider := "local-summary"
          validation :=
            { ok := true
              checks := [ { key := "analytics.summary.exists", passed := true
                            message := "Analytics summary generated." } ] }
          bundle := { bundle with analytics := some data } }

/-- The per-stage dispatch of the runner loop body (the source initialises
`provider = "workflow"` / an empty validation and then overwrites them in the
matching branch; every step key matches exactly one branch, so those defaults
are dead). -/
def runStage (env : StageEnv) (options : WorkflowRunOptions) (key : WorkflowStepKey)
    (bundle : WorkflowBundle) : Except String StageOutcome :=
  match key with
  | .research => runResearch env bundle
  | .draft => runDraft env bundle
  | .rewrite => runRewrite env bundle
  | .assets => runAssets env options.generateAsset bundle
  | .publish => runPublish env options.publishToWordpress bundle
  | .analytics => runAnalytics env bundle

/-! ## The runner loop (`executeWorkflowRun`)

The source mutates `steps[index]` in place and threads one mutable bundle;
the model passes an explicit `RunState`. Wall-clock reads (`new Date()`) are
modelled by a counter incremented at each read, so `startedAt`/`endedAt` are
counter readings and `durationMs` their difference. Besides the translated
`WorkflowRunResult`, the loop also reports which stage indices actually
invoked their executor (`executed`) and every intermediate state observed
right after each step-log mutation (`trace`); both are sidecar observations
used to state claims and do not influence the computed result. -/

/-- Replace the element at one position of a list (the in-place mutation of
`steps[index]`). -/
def updateAt {α : Type} : List α → Nat → (α → α) → List α
  | [], _, _ => []
  | x :: xs, 0, f => f x :: xs
  | x :: xs, n + 1, f => x :: updateAt xs n f

/-- The runner's mutable state: the step log, the bundle, and the clock
counter. -/
structure RunState where
  steps : List WorkflowStepLog
  bundle : WorkflowBundle
  time : Nat
deriving DecidableEq, Repr

/-- Loop body, before the executor call: mark the step `RUNNING`, stamp
`startedAt`, clear previous timing/error fields. -/
def markRunning (st : RunState) (index : Nat) : RunState :=
  { st with
    steps := updateAt st.steps index (fun s =>
      { s with status := .RUNNING, startedAt := some st.time, endedAt := none
               durationMs := none, errorCode := none, errorMessage := none })
    time := st.time + 1 }

/-- Loop body, on executor success: mark `COMPLETED`, record provider and
validation, stamp `endedAt`/`durationMs`, fold the stage's bundle. -/
def completeStep (st : RunState) (index : Nat) (out : StageOutcome) : RunState :=
  { steps := updateAt st.steps index (fun s =>
      { s with status := .COMPLETED, provider := some out.provider
               validation := some out.validation, endedAt := some st.time
               durationMs := some (st.time - s.startedAt.getD 0) })
    bundle := out.bundle
    time := st.time + 1 }

/-- Loop body, on executor exception: mark `FAILED`, split the message into
`errorCode`/`errorMessage`, stamp `endedAt`/`durationMs`. -/
def failStep (st : RunState) (index : Nat) (message : String) : RunState :=
  { st with
    steps := updateAt st.steps index (fun s =>
      { s with status := .FAILED
               errorCode := some (splitErrorMessage message).1
               errorMessage := some (splitErrorMessage message).2
               endedAt := some st.time
               durationMs := some (st.time - s.startedAt.getD 0) })
    time := st.time + 1 }

/-- The `FAILED` early return: step log as-is and the bundle spread with a
freshly aggregated `finalOutput`. -/
def failedResult (key : WorkflowStepKey) (st : RunState) : WorkflowRunResult :=
  { status := .FAILED, failedStep := some key, recoverable := true
    steps := st.steps
    bundle := { st.bundle with finalOutput := some (aggregateFinalOutput st.bundle) } }

/-- The `COMPLETED` return after all six stages: `finalOutput` is written
into the bundle itself. -/
def completedResult (st : RunState) : WorkflowRunResult :=
  { status := .COMPLETED, failedStep := none, recoverable := false
    steps := st.steps
    bundle := { st.bundle with finalOutput := some (aggregateFinalOutput st.bundle) } }

/-- Result of the loop plus the sidecar observations. -/
structure LoopResult where
  result : WorkflowRunResult
  executed : List Nat
  trace : List RunState
deriving DecidableEq, Repr

/-- The `for (let index = 0; ...)` loop over `STEP_ORDER`, recursing on the
remaining step keys (`keys = STEP_ORDER.drop index` at every call). A stage
whose index is below the resume index and whose persisted status is already
`COMPLETED` is skipped; otherwise the stage executes and a failure returns
immediately. -/
def runLoop (env : StageEnv) (options : WorkflowRunOptions) (resumeIndex : Nat) :
    List WorkflowStepKey → Nat → RunState → LoopResult
  | [], _, st =>
    { result := completedResult st, executed := [], trace := [] }
  | key :: rest, index, st =>
    if index < resumeIndex ∧ (st.steps.getD index (freshStep key)).status = .COMPLETED then
      runLoop env options resumeIndex rest (index + 1) st
    else
      let st1 := markRunning st index
      match runStage env options key st1.bundle with
      | .ok out =>
        let st2 := completeStep st1 index out
        let tail := runLoop env options resumeIndex rest (index + 1) st2
        { result := tail.result
          executed := index :: tail.executed
          trace := st1 :: st2 :: tail.trace }
      | .error msg =>
        let st2 := failStep st1 index msg
        { result := failedResult key st2, executed := [index], trace := [st1, st2] }

/-- The effective base bundle for a fresh run. -/
def buildBaseBundle (options : WorkflowRunOptions) : WorkflowBundle :=
  { projectId := options.projectId
    topic := options.topic
    researchTool := some (jsOrOpt options.researchTool "WEB_SEARCH")
    timeWindow := jsOrOpt options.timeWindow "7d"
    tone := jsOrOpt options.tone "professional"
    audience := jsOrOpt options.audience "创作者"
    length := jsOrOpt options.length "medium"
    platforms :=
      match options.platforms with
      | some l => if 0 < l.length then l else DEFAULT_PLATFORMS
      | none => DEFAULT_PLATFORMS }

/-- The explicit-override overlay of the new request over the base bundle
(`options.x || baseBundle.x` field by field; platforms override only when a
non-empty list was supplied). -/
def overlayBundle (options : WorkflowRunOptions) (base : WorkflowBundle) : WorkflowBundle :=
  { base with
    projectId := jsOr options.projectId base.projectId
    topic := jsOr options.topic base.topic
    researchTool := some (jsOrOpt options.researchTool (jsOrOpt base.researchTool "WEB_SEARCH"))
    timeWindow := jsOrOpt options.timeWindow base.timeWindow
    tone := jsOrOpt options.tone base.tone
    audience := jsOrOpt options.audience base.audience
    length := jsOrOpt options.length base.length
    platforms :=
      match options.platforms with
      | some l => if 0 < l.length then l else base.platforms
      | none => base.platforms }

/-- `executeWorkflowRun`. `persisted` is the value of
`buildWorkflowFromTask(resumeTaskId)`: the `{bundle, steps}` previously
written into the task registry's payload for that task id, or `none` when no
resumable state exists; the source only consults it when `resumeTaskId` was
supplied, and only then computes a non-zero resume index. -/
def executeWorkflowRun (env : StageEnv) (options : WorkflowRunOptions)
    (persisted : Option (WorkflowBundle × List WorkflowStepLog)) : LoopResult :=
  let persisted := if options.resumeTaskId.isSome then persisted else none
  let baseBundle := match persisted with
    | some pb => pb.1
    | none => buildBaseBundle options
  let bundle := overlayBundle options baseBundle
  let steps := initSteps (persisted.map (fun pb => pb.2))
  let resumeIndex := match persisted with
    | some _ => findResumeIndex steps
    | none => 0
  runLoop env options resumeIndex STEP_ORDER 0 { steps := steps, bundle := bundle, time := 0 }

/-! ## Run entry point (`app/api/workflow/run/route.ts`) -/

/-- Outcome of the request-validation prefix of the `POST /api/workflow/run`
handler: either an early `meta.error` rejection (no run executes), or
acceptance with the trimmed fields that feed the runner. -/
inductive WorkflowRunRouteOutcome where
  | rejected (code : String) (httpStatus : Nat)
  | accepted (projectId topic resumeTaskId : String)
deriving DecidableEq, Repr

/-- The handler trims `projectId`, `topic` and `resumeTaskId`; when not
resuming, a missing `projectId` or `topic` is rejected with
`VALIDATION_ERROR` and HTTP 400 before any task is upserted or any stage
runs. -/
def workflowRunRoutePOST (rawProjectId rawTopic rawResumeTaskId : String) :
    WorkflowRunRouteOutcome :=
  let projectId := jsTrim rawProjectId
  let topic := jsTrim rawTopic
  let resumeTaskId := jsTrim rawResumeTaskId
  if resumeTaskId = "" ∧ (projectId = "" ∨ topic = "") then
    .rejected "VALIDATION_ERROR" 400
  else
    .accepted projectId topic resumeTaskId

/-! ## Task registry (`src/lib/server/task-registry.ts`)

The registry is a process-wide JS `Map` keyed by task id; the model threads
the store explicitly as a list of snapshots with unique task ids in insertion
order (JS `Map.set` on an existing key updates in place and preserves
insertion order). Each operation takes the current wall-clock time `now`
(epoch milliseconds) explicitly; the source stores ISO timestamp strings and
compares them through `Date.parse`, which is order- and
difference-preserving, so timestamps are modelled as the parsed numbers.
`payload` is a `Record<string, unknown>` whose values the registry never
inspects; it is modelled as an association list of opaque values. -/

/-- `WorkflowTaskStatus`. -/
inductive WorkflowTaskStatus where
  | PENDING | RUNNING | COMPLETED | FAILED | CANCELLED
deriving DecidableEq, Repr

/-- `WorkflowTaskError`. -/
structure WorkflowTaskError where
  code : Option String := none
  message : String
  retriable : Bool
deriving DecidableEq, Repr

/-- An opaque payload record: top-level keys mapped to opaque values. -/
abbrev TaskPayload : Type := List (String × String)

/-- Shallow merge `{...(a || {}), ...(b || {})}` at top-level keys: keys of
`b` override keys of `a`; key order is first-seen order, as for JS object
spread. -/
def mergePayload (a b : TaskPayload) : TaskPayload :=
  (a.filter (fun kv => !(b.any (fun kw => kw.1 == kv.1)))).append b

/-- `WorkflowTaskSnapshot`. `kind` ranges over the `WorkflowTaskKind` string
literals; `progress` is a JS number, integral and within bounds by the write
clamp. -/
structure WorkflowTaskSnapshot where
  taskId : String
  kind : String
  status : WorkflowTaskStatus
  progress : ℚ
  projectId : Option String := none
  provider : Option String := none
  traceId : Option String := none
  idempotencyKey : Option String := none
  requestId : Option String := none
  error : Option WorkflowTaskError := none
  payload : Option TaskPayload := none
  startedAt : Nat
  updatedAt : Nat
  endedAt : Option Nat := none
deriving DecidableEq, Repr

/-- The registry store. -/
abbrev TaskStore : Type := List WorkflowTaskSnapshot

/-- `MAX_AGE_MS = 24 * 60 * 60 * 1000`. -/
def MAX_AGE_MS : Nat := 24 * 60 * 60 * 1000

/-- `cleanupExpired`: drop every entry whose `updatedAt` is more than
`MAX_AGE_MS` in the past; entries with an unparseable or future timestamp are
kept. Runs on every registry access via `getTaskRegistry`. -/
def cleanupExpired (now : Nat) (store : TaskStore) : TaskStore :=
  store.filter (fun task => !(decide (task.updatedAt + MAX_AGE_MS < now)))

/-- JS `Map.get`. -/
def storeGet (store : TaskStore) (taskId : String) : Option WorkflowTaskSnapshot :=
  store.find? (fun task => task.taskId == taskId)

/-- JS `Map.set`: update in place when the key exists, append otherwise. -/
def storeSet (store : TaskStore) (next : WorkflowTaskSnapshot) : TaskStore :=
  if store.any (fun task => task.taskId == next.taskId) then
    store.map (fun task => if task.taskId == next.taskId then next else task)
  else
    store ++ [next]

/-- `clampProgress`: non-finite numbers become 0; finite numbers are rounded
to the nearest integer (half toward positive infinity, as JS `Math.round`)
and clamped into `[0, 100]`. -/
def clampProgress (progress : JSNum) : ℚ :=
  match progress with
  | .num q => max 0 (min 100 ((jsRound q : ℤ) : ℚ))
  | _ => 0

/-- `UpsertTaskInput`; `none` models an absent (`undefined`) field, which JS
object spread does not copy. `progress` is `some` exactly when the caller
supplied a value with `typeof progress === "number"` (NaN included). -/
structure UpsertTaskInput where
  kind : String
  status : Option WorkflowTaskStatus := none
  progress : Option JSNum := none
  projectId : Option String := none
  provider : Option String := none
  traceId : Option String := none
  idempotencyKey : Option String := none
  requestId : Option String := none
  payload : Option TaskPayload := none
deriving DecidableEq, Repr

/-- `PatchTaskInput`. -/
structure PatchTaskInput where
  status : Option WorkflowTaskStatus := none
  progress : Option JSNum := none
  provider : Option String := none
  payload : Option TaskPayload := none
  error : Option WorkflowTaskError := none
  endedAt : Option Nat := none
deriving DecidableEq, Repr

/-- `upsertTask`: create-or-merge. When the task exists, `{...current,
...input}` replaces the supplied fields, progress is clamped when supplied
and kept otherwise, payload is shallow-merged, and `updatedAt` refreshes.
When absent, a snapshot is created with `status` defaulting to `RUNNING`,
`progress` defaulting to 0 (clamped), and `startedAt = updatedAt = now`.
Returns the stored snapshot and the updated store. -/
def upsertTask (now : Nat) (store : TaskStore) (taskId : String) (input : UpsertTaskInput) :
    WorkflowTaskSnapshot × TaskStore :=
  let store := cleanupExpired now store
  let next : WorkflowTaskSnapshot :=
    match storeGet store taskId with
    | some current =>
      { taskId := current.taskId
        kind := input.kind
        status := input.status.getD current.status
        progress :=
          match input.progress with
          | some p => clampProgress p
          | none => current.progress
        projectId := input.projectId.orElse (fun _ => current.projectId)
        provider := input.provider.orElse (fun _ => current.provider)
        traceId := input.traceId.orElse (fun _ => current.traceId)
        idempotencyKey := input.idempotencyKey.orElse (fun _ => current.idempotencyKey)
        requestId := input.requestId.orElse (fun _ => current.requestId)
        error := current.error
        payload := some (mergePayload (current.payload.getD []) (input.payload.getD []))
        startedAt := current.startedAt
        updatedAt := now
        endedAt := current.endedAt }
    | none =>
      { taskId := taskId
        kind := input.kind
        status := input.status.getD .RUNNING
        progress := clampProgress (input.progress.getD (.num 0))
        projectId := input.projectId
        provider := input.provider
        traceId := input.traceId
        idempotencyKey := input.idempotencyKey
        requestId := input.requestId
        payload := input.payload
        startedAt := now
        updatedAt := now }
  (next, storeSet store next)

/-- `patchTask`: `none` when the task is absent; otherwise merge the patch
(progress clamped when supplied, payload shallow-merged only when supplied)
and refresh `updatedAt`. -/
def patchTask (now : Nat) (store : TaskStore) (taskId : String) (patch : PatchTaskInput) :
    Option (WorkflowTaskSnapshot × TaskStore) :=
  let store := cleanupExpired now store
  match storeGet store taskId with
  | none => none
  | some current =>
    let next : WorkflowTaskSnapshot :=
      { current with
        status := patch.status.getD current.status
        progress :=
          match patch.progress with
          | some p => clampProgress p
          | none => current.progress
        provider := patch.provider.orElse (fun _ => current.provider)
        error := patch.error.orElse (fun _ => current.error)
        endedAt := patch.endedAt.orElse (fun _ => current.endedAt)
        payload :=
          match patch.payload with
          | some p => some (mergePayload (current.payload.getD []) p)
          | none => current.payload
        updatedAt := now }
    some (next, storeSet store next)

/-- `getTask`: lookup after the lazy TTL purge. -/
def getTask (now : Nat) (store : TaskStore) (taskId : String) : Option WorkflowTaskSnapshot :=
  storeGet (cleanupExpired now store) taskId

/-- `listTasks` filter input. A single status and a status array both become
a set; `kind`/`projectId` filters apply only when truthy (non-empty). -/
structure ListTasksInput where
  kind : Option String := none
  status : Option (List WorkflowTaskStatus) := none
  projectId : Option String := none
  limit : Option JSNum := none
deriving DecidableEq, Repr

/-- The filter predicate of `listTasks`. -/
def listTasksKeep (input : ListTasksInput) (task : WorkflowTaskSnapshot) : Bool :=
  (match input.kind with
   | some k => if k = "" then true else task.kind == k
   | none => true) &&
  (match input.projectId with
   | some p => if p = "" then true else task.projectId == some p
   | none => true) &&
  (match input.status with
   | some statuses => statuses.any (fun s => s == task.status)
   | none => true)

/-- Stable insertion of one task into a list sorted by `updatedAt`
descending (the comparator `Date.parse(b.updatedAt) - Date.parse(a.updatedAt)`
under a stable sort). -/
def insertByUpdatedDesc (t : WorkflowTaskSnapshot) :
    List WorkflowTaskSnapshot → List WorkflowTaskSnapshot
  | [] => [t]
  | x :: xs =>
    if x.updatedAt < t.updatedAt then t :: x :: xs else x :: insertByUpdatedDesc t xs

/-- Stable sort by `updatedAt` descending. -/
def sortByUpdatedDesc (l : List WorkflowTaskSnapshot) : List WorkflowTaskSnapshot :=
  l.foldr insertByUpdatedDesc []

/-- JS `arr.slice(0, end)` for a JS-number `end` that has already passed
through `Math.floor` (so a finite `end` is integral): NaN converts to 0,
a negative end counts from the end of the array. -/
def jsSlice0 {α : Type} (l : List α) (e : JSNum) : List α :=
  match e with
  | .nan => []
  | .posInf => l
  | .negInf => []
  | .num q =>
    if q < 0 then l.take ((l.length : ℤ) + ⌈q⌉).toNat
    else l.take ⌊q⌋.toNat

/-- The filtered-and-sorted task list before the limit is applied. -/
def listTasksSorted (now : Nat) (store : TaskStore) (input : Option ListTasksInput) :
    List WorkflowTaskSnapshot :=
  let all := cleanupExpired now store
  let filtered := all.filter (fun task =>
    match input with
    | some i => listTasksKeep i task
    | none => true)
  sortByUpdatedDesc filtered

/-- `listTasks`: filter, sort descending by `updatedAt`, then truncate when a
numeric `limit` was supplied, after `Math.max(1, Math.floor(limit))`. -/
def listTasks (now : Nat) (store : TaskStore) (input : Option ListTasksInput) :
    List WorkflowTaskSnapshot :=
  let sorted := listTasksSorted now store input
  match input.bind (fun i => i.limit) with
  | some l => jsSlice0 sorted (JSNum.max2 (.num 1) l.floor)
  | none => sorted

/-- Options of a representative fresh run with asset generation disabled. -/
def optsNoAsset : WorkflowRunOptions :=
  { projectId := "demo-1", topic := "growth", generateAsset := some false }

/-- A persisted step log of a run that completed research and failed at
draft (the shape the runner itself persists after such a failure). -/
def resumeLog : List WorkflowStepLog :=
  [ { step := .research, status := .COMPLETED, retryCount := 0 }
  , { step := .draft, status := .FAILED, retryCount := 0 } ]

/-- A persisted step log in which every stage is already `COMPLETED` (the
degenerate re-run target of the resume path). -/
def completedLog : List WorkflowStepLog :=
  STEP_ORDER.map (fun k => { step := k, status := .COMPLETED, retryCount := 0 })

/-- Options of a representative resumed run. -/
def optsResume : WorkflowRunOptions :=
  { projectId := "demo-1", topic := "growth", resumeTaskId := some "wf-1" }

/-- The stage key at a loop index (`STEP_ORDER[index]`). -/
def stepAt (index : Nat) : WorkflowStepKey := STEP_ORDER.getD index .research

/-- The default step-log entry used with `List.getD` in statements. -/
def dfltStep : WorkflowStepLog := freshStep .research

/-- At most one entry of the step log is `RUNNING`. -/
def atMostOneRunning (steps : List WorkflowStepLog) : Prop :=
  ∀ i j, i < steps.length → j < steps.length →
    (steps.getD i dfltStep).status = .RUNNING →
    (steps.getD j dfltStep).status = .RUNNING → i = j

/-- Every entry before a non-`PENDING` entry is `COMPLETED` (the run works on
a completed prefix followed by the active step and the pending tail). -/
def completedPrefix (steps : List WorkflowStepLog) : Prop :=
  ∀ i j, i < j → j < steps.length →
    (steps.getD j dfltStep).status ≠ .PENDING →
    (steps.getD i dfltStep).status = .COMPLETED

/-! ## Concrete environments used by counterexamples and witnesses -/

/-- A concrete stage environment in which every outbound call fails. -/
def envAllCallsFail : StageEnv :=
  { researchApi := fun _ => .error "PROVIDER_UNAVAILABLE:search failed"
    draftApi := fun _ => .error "PROVIDER_UNAVAILABLE:draft failed"
    rewriteApi := fun _ => .error "PROVIDER_UNAVAILABLE:rewrite failed"
    assetApi := fun _ => .error "PROVIDER_UNAVAILABLE:asset failed"
    publishApi := fun _ => .error "PROVIDER_UNAVAILABLE:publish failed"
    analyticsApi := fun _ => .error "PROVIDER_UNAVAILABLE:analytics failed" }

/-- A research payload that passes `verifyResearchResult`. -/
def goodResearch : ResearchApiOk :=
  { provider := "tavily"
    sources := [{ title := "s1", url := "https://example.com/1" }]
    insight := { summary := "an insight", recommendedTitles := ["t1"] } }

/-- A draft payload that passes `verifyDraftResult` (trimmed length ≥ 200). -/
def goodDraft : DraftApiOk :=
  { content := String.mk (List.replicate 240 'x') }

/-- A rewrite payload covering the four default platforms. -/
def goodRewrite : RewriteApiOk :=
  { variants :=
      [ ("WECHAT", { titleCandidates := ["t"], body := "b" })
      , ("XIAOHONGSHU", { titleCandidates := ["t"], body := "b" })
      , ("WEIBO", { titleCandidates := ["t"], body := "b" })
      , ("BILIBILI", { titleCandidates := ["t"], body := "b" }) ] }

/-- A concrete stage environment in which every outbound call succeeds with
verifier-passing payloads. -/
def envAllCallsSucceed : StageEnv :=
  { researchApi := fun _ => .ok goodResearch
    draftApi := fun _ => .ok goodDraft
    rewriteApi := fun _ => .ok goodRewrite
    assetApi := fun _ => .ok { imageUrl := "https://img.example/1.png", provider := "dashscope" }
    publishApi := fun _ => .ok
      { mode := some "mock", postId := some "42"
        editUrl := some "https://wp.example/edit/42", status := some "draft" }
    analyticsApi := fun _ => .ok [("window", "7d")] }

/-- Like `envAllCallsSucceed` but with a failing draft call. -/
def envDraftFails : StageEnv :=
  { envAllCallsSucceed with draftApi := fun _ => .error "PROVIDER_TIMEOUT:draft call exceeded deadline" }

/-- Options of a representative fresh run. -/
def optsDemo : WorkflowRunOptions := { projectId := "demo-1", topic := "growth" }

/-! ## Shared helper lemmas -/

theorem jsOr_self (a : String) : jsOr a a = a := by
  by_cases h : a = "" <;> simp [jsOr, h]

theorem jsRound_nearest (q : ℚ) : |((jsRound q : ℤ) : ℚ) - q| ≤ 1 / 2 := by
  unfold jsRound
  rw [abs_le]
  constructor
  · have h := Int.lt_floor_add_one (q + 1 / 2)
    push_cast at h ⊢
    linarith
  · have h := Int.floor_le (q + 1 / 2)
    push_cast at h ⊢
    linarith

theorem clampProgress_nonneg (x : JSNum) : 0 ≤ clampProgress x := by
  cases x with
  | num q => exact le_max_left 0 _
  | nan => norm_num [clampProgress]
  | posInf => norm_num [clampProgress]
  | negInf => norm_num [clampProgress]

theorem clampProgress_le_100 (x : JSNum) : clampProgress x ≤ 100 := by
  cases x with
  | num q => exact max_le (by norm_num) (min_le_left _ _)
  | nan => norm_num [clampProgress]
  | posInf => norm_num [clampProgress]
  | negInf => norm_num [clampProgress]

theorem clampProgress_int (x : JSNum) :
    ∃ n : ℤ, clampProgress x = (n : ℚ) ∧ 0 ≤ n ∧ n ≤ 100 := by
  cases x with
  | num q =>
    refine ⟨max 0 (min 100 (jsRound q)), ?_, le_max_left _ _, max_le (by norm_num)
      (min_le_left _ _)⟩
    simp only [clampProgress]
    push_cast
    rfl
  | nan => exact ⟨0, by simp [clampProgress], le_refl 0, by norm_num⟩
  | posInf => exact ⟨0, by simp [clampProgress], le_refl 0, by norm_num⟩
  | negInf => exact ⟨0, by simp [clampProgress], le_refl 0, by norm_num⟩

theorem clampProgress_of_inRange (q : ℚ) (h0 : 0 ≤ jsRound q) (h100 : jsRound q ≤ 100) :
    clampProgress (.num q) = ((jsRound q : ℤ) : ℚ) := by
  have h0q : (0 : ℚ) ≤ ((jsRound q : ℤ) : ℚ) := by exact_mod_cast h0
  have h100q : ((jsRound q : ℤ) : ℚ) ≤ 100 := by exact_mod_cast h100
  simp only [clampProgress]
  rw [min_eq_right h100q, max_eq_right h0q]

theorem mem_storeSet {store : TaskStore} {next t : WorkflowTaskSnapshot}
    (ht : t ∈ storeSet store next) : t = next ∨ t ∈ store := by
  unfold storeSet at ht
  split at ht
  · rcases List.mem_map.mp ht with ⟨u, hu, hut⟩
    by_cases he : u.taskId == next.taskId
    · rw [if_pos he] at hut
      exact Or.inl hut.symm
    · rw [if_neg he] at hut
      exact Or.inr (hut ▸ hu)
  · rcases List.mem_append.mp ht with hu | hu
    · exact Or.inr hu
    · simp only [List.mem_singleton] at hu
      exact Or.inl hu

theorem upsertTask_snd (now : Nat) (store : TaskStore) (taskId : String)
    (input : UpsertTaskInput) :
    (upsertTask now store taskId input).2 =
      storeSet (cleanupExpired now store) (upsertTask now store taskId input).1 := by
  unfold upsertTask
  cases h : storeGet (cleanupExpired now store) taskId <;> simp [h]

theorem upsertTask_progress_int (now : Nat) (store : TaskStore) (taskId : String)
    (input : UpsertTaskInput)
    (hstore : ∀ t ∈ store, ∃ n : ℤ, t.progress = (n : ℚ)) :
    ∃ n : ℤ, (upsertTask now store taskId input).1.progress = (n : ℚ) := by
  unfold upsertTask
  cases h : storeGet (cleanupExpired now store) taskId with
  | some current =>
    cases hp : input.progress with
    | some p =>
      obtain ⟨n, hn, -, -⟩ := clampProgress_int p
      exact ⟨n, by simp [h, hp, hn]⟩
    | none =>
      have hcur : current ∈ cleanupExpired now store := List.mem_of_find?_eq_some h
      obtain ⟨n, hn⟩ := hstore current (List.mem_of_mem_filter hcur)
      exact ⟨n, by simp [h, hp, hn]⟩
  | none =>
    obtain ⟨n, hn, -, -⟩ := clampProgress_int (input.progress.getD (.num 0))
    exact ⟨n, by simp [h, hn]⟩

theorem patchTask_shape (now : Nat) (store : TaskStore) (taskId : String)
    (patch : PatchTaskInput) (snap : WorkflowTaskSnapshot) (store2 : TaskStore)
    (hpt : patchTask now store taskId patch = some (snap, store2)) :
    ∃ current, storeGet (cleanupExpired now store) taskId = some current
      ∧ snap.progress = (match patch.progress with
          | some p => clampProgress p
          | none => current.progress)
      ∧ store2 = storeSet (cleanupExpired now store) snap := by
  unfold patchTask at hpt
  cases h : storeGet (cleanupExpired now store) taskId with
  | none => simp [h] at hpt
  | some current =>
    simp only [h, Option.some.injEq, Prod.mk.injEq] at hpt
    obtain ⟨hsnap, hstore2⟩ := hpt
    rw [hsnap] at hstore2
    exact ⟨current, rfl, by rw [← hsnap], hstore2.symm⟩

/-! ## Claim C10 — `clampProgress` numeric semantics -/

/-- C10: `clampProgress` maps every non-finite input (NaN, +Infinity,
-Infinity) to 0 — in particular an `upsertTask` write supplying
`progress = +Infinity` stores 0, not 100 — and rounds every finite input to a
nearest integer (`Math.round`, half toward positive infinity) before clamping
to `[0, 100]` (99.6 is stored as 100); every value `clampProgress` produces
is an integer in `[0, 100]`, and `upsertTask`/`patchTask` preserve store-wide
integrality of progress, so every stored progress value is an integer. -/
theorem C10_clampProgress_semantics :
    clampProgress .nan = 0 ∧ clampProgress .posInf = 0 ∧ clampProgress .negInf = 0
    ∧ (∀ now store taskId input, input.progress = some JSNum.posInf →
        (upsertTask now store taskId input).1.progress = 0)
    ∧ (∀ q : ℚ, |((jsRound q : ℤ) : ℚ) - q| ≤ 1 / 2)
    ∧ (∀ q : ℚ, 0 ≤ jsRound q → jsRound q ≤ 100 →
        clampProgress (.num q) = ((jsRound q : ℤ) : ℚ))
    ∧ clampProgress (.num (996 / 10)) = 100
    ∧ (∀ x : JSNum, ∃ n : ℤ, clampProgress x = (n : ℚ) ∧ 0 ≤ n ∧ n ≤ 100)
    ∧ (∀ now store taskId input,
        (∀ t ∈ store, ∃ n : ℤ, t.progress = (n : ℚ)) →
        ∀ t ∈ (upsertTask now store taskId input).2, ∃ n : ℤ, t.progress = (n : ℚ))
    ∧ (∀ now store taskId patch snap store2,
        patchTask now store taskId patch = some (snap, store2) →
        (∀ t ∈ store, ∃ n : ℤ, t.progress = (n : ℚ)) →
        ∀ t ∈ store2, ∃ n : ℤ, t.progress = (n : ℚ)) := by
  refine ⟨rfl, rfl, rfl, ?_, jsRound_nearest, clampProgress_of_inRange,
    by norm_num [clampProgress, jsRound], clampProgress_int, ?_, ?_⟩
  · intro now store taskId input hp
    unfold upsertTask
    cases h : storeGet (cleanupExpired now store) taskId <;>
      simp [h, hp, clampProgress]
  · intro now store taskId input hstore t ht
    rw [upsertTask_snd] at ht
    rcases mem_storeSet ht with h | h
    · rw [h]
      exact upsertTask_progress_int now store taskId input hstore
    · exact hstore t (List.mem_of_mem_filter h)
  · intro now store taskId patch snap store2 hpt hstore t ht
    obtain ⟨current, hcur, hprog, hstore2⟩ := patchTask_shape now store taskId patch snap store2 hpt
    rw [hstore2] at ht
    rcases mem_storeSet ht with h | h
    · rw [h, hprog]
      cases hp : patch.progress with
      | some p =>
        obtain ⟨n, hn, -, -⟩ := clampProgress_int p
        exact ⟨n, hn⟩
      | none =>
        have hmem : current ∈ cleanupExpired now store := List.mem_of_find?_eq_some hcur
        exact hstore current (List.mem_of_mem_filter hmem)
    · exact hstore t (List.mem_of_mem_filter h)

/-- C10 witness: the clamping facts at concrete inputs, including the
`+Infinity`-write conjunct discharged on a concrete store. -/
theorem C10_witness :
    (upsertTask 7 [] "t1" { kind := "workflow", progress := some JSNum.posInf }).1.progress = 0
    ∧ clampProgress (.num (996 / 10)) = 100 := by
  have h := C10_clampProgress_semantics
  exact ⟨h.2.2.2.1 7 [] "t1" { kind := "workflow", progress := some JSNum.posInf } rfl,
    h.2.2.2.2.2.2.1⟩

/-! ## Claim C8 — progress clamped on every registry write -/

/-- C8: every `upsertTask`/`patchTask` write that supplies a numeric progress
stores a progress in `[0, 100]`; `upsertTask("t1", {progress: 140})` followed
by `getTask("t1")` yields 100 and a subsequent write of -5 yields 0; a write
that omits progress keeps the current value (0 on creation). -/
theorem C8_progress_clamped_on_write :
    (∀ now store taskId input p, input.progress = some p →
        0 ≤ (upsertTask now store taskId input).1.progress
        ∧ (upsertTask now store taskId input).1.progress ≤ 100)
    ∧ (∀ now store taskId patch snap store2 p, patch.progress = some p →
        patchTask now store taskId patch = some (snap, store2) →
        0 ≤ snap.progress ∧ snap.progress ≤ 100)
    ∧ (∀ now store taskId input current, input.progress = none →
        storeGet (cleanupExpired now store) taskId = some current →
        (upsertTask now store taskId input).1.progress = current.progress)
    ∧ (∀ now store taskId input, input.progress = none →
        storeGet (cleanupExpired now store) taskId = none →
        (upsertTask now store taskId input).1.progress = 0)
    ∧ ((getTask 0 (upsertTask 0 [] "t1"
          { kind := "workflow", progress := some (.num 140) }).2 "t1").map
        (fun s => s.progress) = some 100)
    ∧ ((getTask 0 (upsertTask 0 (upsertTask 0 [] "t1"
            { kind := "workflow", progress := some (.num 140) }).2 "t1"
          { kind := "workflow", progress := some (.num (-5)) }).2 "t1").map
        (fun s => s.progress) = some 0) := by
  refine ⟨?_, ?_, ?_, ?_, ?_, ?_⟩
  · intro now store taskId input p hp
    unfold upsertTask
    cases h : storeGet (cleanupExpired now store) taskId with
    | some current =>
      simp only [h, hp]
      exact ⟨clampProgress_nonneg p, clampProgress_le_100 p⟩
    | none =>
      simp only [h, hp, Option.getD_some]
      exact ⟨clampProgress_nonneg p, clampProgress_le_100 p⟩
  · intro now store taskId patch snap store2 p hp hpt
    obtain ⟨current, -, hprog, -⟩ := patchTask_shape now store taskId patch snap store2 hpt
    rw [hp] at hprog
    simp only at hprog
    rw [hprog]
    exact ⟨clampProgress_nonneg p, clampProgress_le_100 p⟩
  · intro now store taskId input current hp h
    unfold upsertTask
    simp only [h, hp]
  · intro now store taskId input hp h
    unfold upsertTask
    simp only [h, hp, Option.getD_none]
    norm_num [clampProgress, jsRound]
  · norm_num [getTask, upsertTask, storeGet, storeSet, cleanupExpired, clampProgress, jsRound]
  · norm_num [getTask, upsertTask, storeGet, storeSet, cleanupExpired, clampProgress, jsRound]

/-- C8 witness: the bound conjuncts applied at a concrete write. -/
theorem C8_witness :
    0 ≤ (upsertTask 3 [] "t9" { kind := "workflow", progress := some (.num 777) }).1.progress
    ∧ (upsertTask 3 [] "t9" { kind := "workflow", progress := some (.num 777) }).1.progress ≤ 100 := by
  exact C8_progress_clamped_on_write.1 3 [] "t9"
    { kind := "workflow", progress := some (.num 777) } (.num 777) rfl

/-! ## Claim C9 — `listTasks` limit clamping -/

theorem length_insertByUpdatedDesc (t : WorkflowTaskSnapshot) (l : List WorkflowTaskSnapshot) :
    (insertByUpdatedDesc t l).length = l.length + 1 := by
  induction l with
  | nil => rfl
  | cons x xs ih =>
    unfold insertByUpdatedDesc
    split
    · rfl
    · simp [ih]

theorem length_sortByUpdatedDesc (l : List WorkflowTaskSnapshot) :
    (sortByUpdatedDesc l).length = l.length := by
  induction l with
  | nil => rfl
  | cons x xs ih =>
    unfold sortByUpdatedDesc at ih ⊢
    rw [List.foldr_cons, length_insertByUpdatedDesc, ih, List.length_cons]

/-- C9: a numeric `limit ≤ 0` is clamped below to 1, so the result still
contains up to one task (exactly one whenever any task matches) rather than
being empty; a `limit ≥ 1` truncates to `Math.floor(limit)` many tasks (fewer
when fewer match); omitting `limit` returns all matches. -/
theorem C9_listTasks_limit :
    (∀ now store i q, i.limit = some (.num q) → q ≤ 0 →
        (listTasks now store (some i)).length = min 1 (listTasksSorted now store (some i)).length
        ∧ (listTasksSorted now store (some i) ≠ [] → listTasks now store (some i) ≠ []))
    ∧ (∀ now store i q, i.limit = some (.num q) → 1 ≤ q →
        (listTasks now store (some i)).length
          = min (⌊q⌋.toNat) (listTasksSorted now store (some i)).length)
    ∧ (∀ now store i, i.limit = none →
        listTasks now store (some i) = listTasksSorted now store (some i)) := by
  refine ⟨?_, ?_, ?_⟩
  · intro now store i q hl hq
    have hfloor : ⌊q⌋ ≤ 0 := Int.floor_nonpos hq
    have hcast : ((⌊q⌋ : ℤ) : ℚ) ≤ 1 := by exact_mod_cast hfloor.trans (by norm_num)
    have heff : JSNum.max2 (.num 1) (JSNum.floor (.num q)) = .num 1 := by
      simp only [JSNum.floor, JSNum.max2]
      rw [max_eq_left hcast]
    have hlen : (listTasks now store (some i)).length
        = min 1 (listTasksSorted now store (some i)).length := by
      simp only [listTasks, Option.bind, hl, heff, jsSlice0]
      norm_num
    refine ⟨hlen, fun hne => ?_⟩
    intro hnil
    have h0 : (listTasks now store (some i)).length = 0 := by rw [hnil]; rfl
    rw [hlen] at h0
    have hpos : 0 < (listTasksSorted now store (some i)).length :=
      List.length_pos.mpr hne
    omega
  · intro now store i q hl hq
    have hfloor : 1 ≤ ⌊q⌋ := by
      rw [Int.le_floor]
      exact_mod_cast hq
    have hcast : (1 : ℚ) ≤ ((⌊q⌋ : ℤ) : ℚ) := by exact_mod_cast hfloor
    have heff : JSNum.max2 (.num 1) (JSNum.floor (.num q)) = .num ((⌊q⌋ : ℤ) : ℚ) := by
      simp only [JSNum.floor, JSNum.max2]
      rw [max_eq_right hcast]
    have hnotneg : ¬((⌊q⌋ : ℤ) : ℚ) < 0 := by
      intro hcon
      have : (0 : ℚ) < 1 := by norm_num
      linarith
    simp only [listTasks, Option.bind, hl, heff, jsSlice0, if_neg hnotneg,
      Int.floor_intCast, List.length_take]
  · intro now store i hl
    simp [listTasks, hl]

/-- C9 witness: on a two-task store, `limit = 0` still returns one task. -/
theorem C9_witness :
    (listTasks 5
      [ { taskId := "a", kind := "workflow", status := .RUNNING, progress := 0
          startedAt := 0, updatedAt := 0 }
      , { taskId := "b", kind := "workflow", status := .FAILED, progress := 0
          startedAt := 1, updatedAt := 1 } ]
      (some { limit := some (.num 0) })).length = 1 := by
  have h := C9_listTasks_limit.1 5
    [ { taskId := "a", kind := "workflow", status := .RUNNING, progress := 0
        startedAt := 0, updatedAt := 0 }
    , { taskId := "b", kind := "workflow", status := .FAILED, progress := 0
        startedAt := 1, updatedAt := 1 } ]
    { limit := some (.num 0) } 0 rfl (by norm_num)
  rw [h.1]
  rfl

/-! ## Claim C6 — `verifyRewriteResult` semantics -/

theorem jsTrim_empty : jsTrim "" = "" := rfl

theorem platformChecks_keys (variants : List (String × RewriteVariant)) (p : String) :
    ∃ c1 c2, rewritePlatformChecks variants p = [c1, c2]
      ∧ c1.key = "rewrite." ++ p ++ ".body" ∧ c2.key = "rewrite." ++ p ++ ".title" :=
  ⟨_, _, rfl, rfl, rfl⟩

theorem platformChecks_pass (variants : List (String × RewriteVariant)) (p : String) :
    (∀ c ∈ rewritePlatformChecks variants p, c.passed = true) ↔
    (∃ v, lookupVariant variants p = some v ∧ jsTrim v.body ≠ ""
      ∧ 0 < v.titleCandidates.length) := by
  cases h : lookupVariant variants p with
  | none => simp [rewritePlatformChecks, h, rowBody, rowHasTitle, jsTrim_empty]
  | some v => simp [rewritePlatformChecks, h, rowBody, rowHasTitle]

/-- C6: `verifyRewriteResult` passes iff at least one variant exists and every
required platform has a variant with a non-empty trimmed body and at least one
title candidate; each required platform contributes a `rewrite.<p>.body` and a
`rewrite.<p>.title` check; concretely, requiring WECHAT and WEIBO with only a
WECHAT variant fails with a failing `rewrite.WEIBO.body` check. -/
theorem C6_verifyRewrite_semantics :
    (∀ (variants : List (String × RewriteVariant)) (ps : List String),
      ((verifyRewriteResult variants ps).ok = true ↔
        (0 < variants.length ∧ ∀ p ∈ ps, ∃ v, lookupVariant variants p = some v
          ∧ jsTrim v.body ≠ "" ∧ 0 < v.titleCandidates.length))
      ∧ (∀ p ∈ ps,
          (∃ c ∈ (verifyRewriteResult variants ps).checks, c.key = "rewrite." ++ p ++ ".body")
          ∧ (∃ c ∈ (verifyRewriteResult variants ps).checks, c.key = "rewrite." ++ p ++ ".title")))
    ∧ ((verifyRewriteResult [("WECHAT", { titleCandidates := ["t"], body := "x" })]
          ["WECHAT", "WEIBO"]).ok = false
        ∧ ∃ c ∈ (verifyRewriteResult [("WECHAT", { titleCandidates := ["t"], body := "x" })]
            ["WECHAT", "WEIBO"]).checks,
          c.key = "rewrite.WEIBO.body" ∧ c.passed = false) := by
  constructor
  · intro variants ps
    constructor
    · simp only [verifyRewriteResult, buildResult, List.all_eq_true, List.mem_cons,
        List.mem_flatMap]
      constructor
      · intro h
        refine ⟨?_, ?_⟩
        · have := h _ (Or.inl rfl)
          simpa using this
        · intro p hp
          rw [← platformChecks_pass]
          intro c hc
          exact h c (Or.inr ⟨p, hp, hc⟩)
      · rintro ⟨h1, h2⟩ c hc
        rcases hc with rfl | ⟨p, hp, hc⟩
        · simpa using h1
        · exact (platformChecks_pass variants p).mpr (h2 p hp) c hc
    · intro p hp
      obtain ⟨c1, c2, hlist, hk1, hk2⟩ := platformChecks_keys variants p
      have hflat1 : c1 ∈ ps.flatMap (rewritePlatformChecks variants) :=
        List.mem_flatMap.mpr ⟨p, hp, by rw [hlist]; exact List.mem_cons_self _ _⟩
      have hflat2 : c2 ∈ ps.flatMap (rewritePlatformChecks variants) :=
        List.mem_flatMap.mpr ⟨p, hp, by rw [hlist]; simp⟩
      exact ⟨⟨c1, List.mem_cons_of_mem _ hflat1, hk1⟩,
        ⟨c2, List.mem_cons_of_mem _ hflat2, hk2⟩⟩
  · exact ⟨by decide, by decide⟩

/-- C6 witness: the per-platform check-contribution conjunct applied at a
concrete variant map and platform list. -/
theorem C6_witness :
    ∃ c ∈ (verifyRewriteResult [("WECHAT", { titleCandidates := ["t"], body := "x" })]
        ["WECHAT"]).checks, c.key = "rewrite.WECHAT.body" := by
  exact ((C6_verifyRewrite_semantics.1
    [("WECHAT", { titleCandidates := ["t"], body := "x" })] ["WECHAT"]).2
    "WECHAT" (by simp)).1

/-! ## Claim C1 — `finalOutput` presence -/

theorem runLoop_finalOutput_isSome (env : StageEnv) (options : WorkflowRunOptions)
    (r : Nat) :
    ∀ (keys : List WorkflowStepKey) (index : Nat) (st : RunState),
      ((runLoop env options r keys index st).result.bundle.finalOutput).isSome = true := by
  intro keys
  induction keys with
  | nil =>
    intro index st
    simp [runLoop, completedResult]
  | cons key rest ih =>
    intro index st
    simp only [runLoop]
    split
    · exact ih (index + 1) st
    · cases h : runStage env options key (markRunning st index).bundle with
      | ok out =>
        simp only [h]
        exact ih (index + 1) _
      | error msg =>
        simp [h, failedResult]

/-- C1 (amended): `executeWorkflowRun` attaches `finalOutput` to the bundle of
every result it returns — on COMPLETED it is computed from the full bundle,
and on FAILED the early-return spreads the partial bundle with a
`finalOutput` aggregated from the data accumulated so far; presence is not
restricted to `status = COMPLETED`. -/
theorem C1_finalOutput_always_present (env : StageEnv) (options : WorkflowRunOptions)
    (persisted : Option (WorkflowBundle × List WorkflowStepLog)) :
    ((executeWorkflowRun env options persisted).result.bundle.finalOutput).isSome = true := by
  unfold executeWorkflowRun
  exact runLoop_finalOutput_isSome env options _ STEP_ORDER 0 _

/-- C1 counterexample: a fresh run whose research call fails returns
`status = FAILED` and a bundle that does contain a `finalOutput` sub-record,
contradicting the claim that a FAILED result carries no `finalOutput`. -/
theorem C1_counterexample :
    (executeWorkflowRun envAllCallsFail optsDemo none).result.status = .FAILED
    ∧ ((executeWorkflowRun envAllCallsFail optsDemo none).result.bundle.finalOutput).isSome
        = true := ⟨rfl, rfl⟩

/-! ## Claim C3 — empty topic -/

/-- C3 counterexample: submitting through the run entry point with a
non-empty `projectId`, an empty `topic`, and no `resumeTaskId` is rejected
with `ok = false` (`VALIDATION_ERROR`, HTTP 400) before the runner is ever
invoked, so no run result with `status = FAILED` and
`failedStep = "research"` is produced, contrary to the claim. -/
theorem C3_counterexample :
    workflowRunRoutePOST "demo-1" "" "" = .rejected "VALIDATION_ERROR" 400 := rfl

theorem executeWorkflowRun_fresh (env : StageEnv) (options : WorkflowRunOptions) :
    executeWorkflowRun env options none =
      runLoop env options 0 STEP_ORDER 0
        { steps := initSteps none
          bundle := overlayBundle options (buildBaseBundle options)
          time := 0 } := by
  unfold executeWorkflowRun
  cases h : options.resumeTaskId <;> simp [h]

/-- C3 (amended): the entry point rejects an empty topic when not resuming
(see the counterexample); when `executeWorkflowRun` itself is reached with an
effectively empty topic and no persisted state (as in the repository's smoke
test, which submits `topic=""` together with a fresh `resumeTaskId`), the
research endpoint's input validation rejects the empty query and the run
returns `status = FAILED`, `failedStep = research`, `recoverable = true`,
with the research step carrying error code `VALIDATION_ERROR`. -/
theorem C3_empty_topic_fails_research (env : StageEnv) (options : WorkflowRunOptions)
    (h : jsTrim options.topic = "") :
    (executeWorkflowRun env options none).result.status = .FAILED
    ∧ (executeWorkflowRun env options none).result.failedStep = some .research
    ∧ (executeWorkflowRun env options none).result.recoverable = true
    ∧ ((executeWorkflowRun env options none).result.steps.getD 0 (freshStep .research)).errorCode
        = some "VALIDATION_ERROR"
    ∧ ((executeWorkflowRun env options none).result.steps.getD 0 (freshStep .research)).errorMessage
        = some "query is required"
    ∧ ((executeWorkflowRun env options none).result.steps.getD 0 (freshStep .research)).status
        = .FAILED := by
  have htopic : (overlayBundle options (buildBaseBundle options)).topic = options.topic := by
    simp [overlayBundle, buildBaseBundle, jsOr_self]
  have hres : runStage env options .research
      (markRunning
        { steps := initSteps none
          bundle := overlayBundle options (buildBaseBundle options)
          time := 0 } 0).bundle = .error "VALIDATION_ERROR:query is required" := by
    show runResearch env _ = _
    unfold runResearch
    rw [if_pos]
    show jsTrim (overlayBundle options (buildBaseBundle options)).topic = ""
    rw [htopic, h]
  rw [executeWorkflowRun_fresh]
  rw [show STEP_ORDER = .research ::
    [WorkflowStepKey.draft, .rewrite, .assets, .publish, .analytics] from rfl]
  simp only [runLoop]
  rw [if_neg (by simp)]
  rw [hres]
  exact ⟨rfl, rfl, rfl, rfl, rfl, rfl⟩

/-- C3 witness: the amended theorem at a concrete empty-topic run. -/
theorem C3_witness :
    (executeWorkflowRun envAllCallsSucceed { projectId := "demo-1", topic := "" } none).result.status
      = .FAILED
    ∧ (executeWorkflowRun envAllCallsSucceed { projectId := "demo-1", topic := "" }
        none).result.failedStep = some .research := by
  have h := C3_empty_topic_fails_research envAllCallsSucceed
    { projectId := "demo-1", topic := "" } rfl
  exact ⟨h.1, h.2.1⟩

/-! ## Loop machinery lemmas -/

theorem length_updateAt {α : Type} (l : List α) (i : Nat) (f : α → α) :
    (updateAt l i f).length = l.length := by
  induction l generalizing i with
  | nil => rfl
  | cons x xs ih =>
    cases i with
    | zero => rfl
    | succ n => simp [updateAt, ih]

theorem getD_updateAt_ne {α : Type} (l : List α) (i j : Nat) (f : α → α) (d : α)
    (h : i ≠ j) : (updateAt l i f).getD j d = l.getD j d := by
  induction l generalizing i j with
  | nil => rfl
  | cons x xs ih =>
    cases i with
    | zero =>
      cases j with
      | zero => exact absurd rfl h
      | succ m => rfl
    | succ n =>
      cases j with
      | zero => rfl
      | succ m =>
        simp only [updateAt, List.getD_cons_succ]
        exact ih n m (fun he => h (by rw [he]))

theorem getD_updateAt_eq {α : Type} (l : List α) (i : Nat) (f : α → α) (d : α)
    (h : i < l.length) : (updateAt l i f).getD i d = f (l.getD i d) := by
  induction l generalizing i with
  | nil => simp at h
  | cons x xs ih =>
    cases i with
    | zero => rfl
    | succ n =>
      simp only [updateAt, List.getD_cons_succ]
      exact ih n (by simpa using h)

theorem STEP_ORDER_length : STEP_ORDER.length = 6 := rfl

theorem STEP_ORDER_drop (index : Nat) (h : index < 6) :
    STEP_ORDER.drop index = stepAt index :: STEP_ORDER.drop (index + 1) := by
  interval_cases index <;> rfl

theorem STEP_ORDER_drop_ge (index : Nat) (h : 6 ≤ index) :
    STEP_ORDER.drop index = [] :=
  List.drop_eq_nil_of_le (by rw [STEP_ORDER_length]; exact h)

theorem markRunning_bundle (st : RunState) (index : Nat) :
    (markRunning st index).bundle = st.bundle := rfl

theorem runResearch_ok_topic (env : StageEnv) (b : WorkflowBundle) (out : StageOutcome)
    (h : runResearch env b = .ok out) : out.bundle.topic = b.topic := by
  unfold runResearch at h
  repeat' split at h
  all_goals
    first
      | exact Except.noConfusion h
      | (simp only [Except.ok.injEq] at h; subst h; rfl)

theorem runDraft_ok_topic (env : StageEnv) (b : WorkflowBundle) (out : StageOutcome)
    (h : runDraft env b = .ok out) : out.bundle.topic = b.topic := by
  unfold runDraft at h
  repeat' split at h
  all_goals
    first
      | exact Except.noConfusion h
      | (simp only [Except.ok.injEq] at h; subst h; rfl)

theorem runRewrite_ok_topic (env : StageEnv) (b : WorkflowBundle) (out : StageOutcome)
    (h : runRewrite env b = .ok out) : out.bundle.topic = b.topic := by
  unfold runRewrite at h
  repeat' split at h
  all_goals
    first
      | exact Except.noConfusion h
      | (simp only [Except.ok.injEq] at h; subst h; rfl)

theorem runAssets_ok_topic (env : StageEnv) (g : Option Bool) (b : WorkflowBundle)
    (out : StageOutcome)
    (h : runAssets env g b = .ok out) : out.bundle.topic = b.topic := by
  unfold runAssets at h
  repeat' split at h
  all_goals
    first
      | exact Except.noConfusion h
      | (simp only [Except.ok.injEq] at h; subst h; rfl)

theorem runPublish_ok_topic (env : StageEnv) (g : Option Bool) (b : WorkflowBundle)
    (out : StageOutcome)
    (h : runPublish env g b = .ok out) : out.bundle.topic = b.topic := by
  unfold runPublish at h
  repeat' split at h
  all_goals
    first
      | exact Except.noConfusion h
      | (simp only [Except.ok.injEq] at h; subst h; rfl)

theorem runAnalytics_ok_topic (env : StageEnv) (b : WorkflowBundle) (out : StageOutcome)
    (h : runAnalytics env b = .ok out) : out.bundle.topic = b.topic := by
  unfold runAnalytics at h
  repeat' split at h
  all_goals
    first
      | exact Except.noConfusion h
      | (simp only [Except.ok.injEq] at h; subst h; rfl)

theorem runStage_ok_topic (env : StageEnv) (options : WorkflowRunOptions)
    (key : WorkflowStepKey) (b : WorkflowBundle) (out : StageOutcome)
    (h : runStage env options key b = .ok out) : out.bundle.topic = b.topic := by
  cases key with
  | research => exact runResearch_ok_topic env b out h
  | draft => exact runDraft_ok_topic env b out h
  | rewrite => exact runRewrite_ok_topic env b out h
  | assets => exact runAssets_ok_topic env options.generateAsset b out h
  | publish => exact runPublish_ok_topic env options.publishToWordpress b out h
  | analytics => exact runAnalytics_ok_topic env b out h

theorem runPublish_ok_assets (env : StageEnv) (g : Option Bool) (b : WorkflowBundle)
    (out : StageOutcome)
    (h : runPublish env g b = .ok out) : out.bundle.assets = b.assets := by
  unfold runPublish at h
  repeat' split at h
  all_goals
    first
      | exact Except.noConfusion h
      | (simp only [Except.ok.injEq] at h; subst h; rfl)

theorem runAnalytics_ok_assets (env : StageEnv) (b : WorkflowBundle) (out : StageOutcome)
    (h : runAnalytics env b = .ok out) : out.bundle.assets = b.assets := by
  unfold runAnalytics at h
  repeat' split at h
  all_goals
    first
      | exact Except.noConfusion h
      | (simp only [Except.ok.injEq] at h; subst h; rfl)

/-! ## Error-message splitting lemmas -/

theorem jsSplitChar_ne_nil (sep : Char) (l : List Char) : jsSplitChar sep l ≠ [] := by
  cases l with
  | nil => simp [jsSplitChar]
  | cons c cs =>
    cases h : jsSplitChar sep cs with
    | nil => simp [jsSplitChar, h]
    | cons seg segs => by_cases hc : c = sep <;> simp [jsSplitChar, h, hc]

theorem jsSplitChar_append (sep : Char) (l1 l2 : List Char) (h : ∀ ch ∈ l1, ch ≠ sep) :
    jsSplitChar sep (l1 ++ sep :: l2) = l1 :: jsSplitChar sep l2 := by
  induction l1 with
  | nil =>
    cases hs : jsSplitChar sep l2 with
    | nil => exact absurd hs (jsSplitChar_ne_nil sep l2)
    | cons seg segs => simp [jsSplitChar, hs]
  | cons a as ih =>
    have ha : a ≠ sep := h a (List.mem_cons_self a as)
    have ih2 := ih (fun ch hch => h ch (List.mem_cons_of_mem a hch))
    simp only [List.cons_append, jsSplitChar, List.append_eq]
    rw [ih2]
    simp [ha]

theorem jsJoinChar_jsSplitChar (sep : Char) (l : List Char) :
    jsJoinChar sep (jsSplitChar sep l) = l := by
  induction l with
  | nil => rfl
  | cons c cs ih =>
    cases h : jsSplitChar sep cs with
    | nil => exact absurd h (jsSplitChar_ne_nil sep cs)
    | cons seg segs =>
      rw [h] at ih
      by_cases hc : c = sep
      · simp only [jsSplitChar, h, if_pos hc]
        rw [show jsJoinChar sep ([] :: seg :: segs) =
          [] ++ sep :: jsJoinChar sep (seg :: segs) from rfl]
        rw [ih]
        simp [hc]
      · simp only [jsSplitChar, h, if_neg hc]
        cases segs with
        | nil =>
          have hseg : seg = cs := ih
          simp [jsJoinChar, hseg]
        | cons s2 rest =>
          rw [show jsJoinChar sep ((c :: seg) :: s2 :: rest) =
            (c :: seg) ++ sep :: jsJoinChar sep (s2 :: rest) from rfl]
          rw [show jsJoinChar sep (seg :: s2 :: rest) =
            seg ++ sep :: jsJoinChar sep (s2 :: rest) from rfl] at ih
          rw [← ih]
          simp

/-- The catch-block parsing splits a conventional `"<CODE>:<detail>"` message
on its first colon: with a colon-free non-empty code part and a non-empty
detail part, `errorCode` is the part before the first colon and
`errorMessage` everything after it. -/
theorem splitErrorMessage_spec (msg c d : String)
    (hmsg : msg.data = c.data ++ ':' :: d.data)
    (hc : c ≠ "") (hcfree : ∀ ch ∈ c.data, ch ≠ ':') (hd : d ≠ "") :
    splitErrorMessage msg = (c, d) := by
  simp only [splitErrorMessage]
  rw [hmsg, jsSplitChar_append _ _ _ hcfree, List.headD_cons, List.tail_cons,
    jsJoinChar_jsSplitChar]
  show (jsOr c "UNKNOWN_ERROR", jsOr d msg) = (c, d)
  simp [jsOr, hc, hd]

/-! ## Unfolding equations of the runner loop -/

theorem runLoop_nil (env : StageEnv) (options : WorkflowRunOptions) (r index : Nat)
    (st : RunState) :
    runLoop env options r [] index st =
      { result := completedResult st, executed := [], trace := [] } := rfl

theorem runLoop_cons_skip (env : StageEnv) (options : WorkflowRunOptions) (r : Nat)
    (key : WorkflowStepKey) (rest : List WorkflowStepKey) (index : Nat) (st : RunState)
    (hc : index < r ∧ (st.steps.getD index (freshStep key)).status = .COMPLETED) :
    runLoop env options r (key :: rest) index st =
      runLoop env options r rest (index + 1) st := by
  rw [runLoop, if_pos hc]

theorem runLoop_cons_exec (env : StageEnv) (options : WorkflowRunOptions) (r : Nat)
    (key : WorkflowStepKey) (rest : List WorkflowStepKey) (index : Nat) (st : RunState)
    (hc : ¬(index < r ∧ (st.steps.getD index (freshStep key)).status = .COMPLETED)) :
    runLoop env options r (key :: rest) index st =
      match runStage env options key (markRunning st index).bundle with
      | .ok out =>
        { result := (runLoop env options r rest (index + 1)
            (completeStep (markRunning st index) index out)).result
          executed := index :: (runLoop env options r rest (index + 1)
            (completeStep (markRunning st index) index out)).executed
          trace := markRunning st index :: completeStep (markRunning st index) index out ::
            (runLoop env options r rest (index + 1)
              (completeStep (markRunning st index) index out)).trace }
      | .error msg =>
        { result := failedResult key (failStep (markRunning st index) index msg)
          executed := [index]
          trace := [markRunning st index, failStep (markRunning st index) index msg] } := by
  rw [runLoop, if_neg hc]

/-! ## The failure path of the runner loop (claim C2) -/

theorem runLoop_fails_at (env : StageEnv) (options : WorkflowRunOptions) (msg : String)
    (i : Nat) (hi : i < 6)
    (herr : ∀ b, b.topic = options.topic → runStage env options (stepAt i) b = .error msg)
    (hok : ∀ j, j < i → ∀ b, b.topic = options.topic →
      ∃ out, runStage env options (stepAt j) b = .ok out) :
    ∀ (fuel index : Nat) (st : RunState), fuel = i - index → index ≤ i →
      st.steps.length = 6 →
      st.bundle.topic = options.topic →
      (∀ j, index ≤ j → j < 6 → (st.steps.getD j dfltStep).status = .PENDING) →
      (runLoop env options 0 (STEP_ORDER.drop index) index st).result.status = .FAILED
      ∧ (runLoop env options 0 (STEP_ORDER.drop index) index st).result.failedStep
          = some (stepAt i)
      ∧ (runLoop env options 0 (STEP_ORDER.drop index) index st).result.recoverable = true
      ∧ ((runLoop env options 0 (STEP_ORDER.drop index) index st).result.steps.getD i
          dfltStep).status = .FAILED
      ∧ ((runLoop env options 0 (STEP_ORDER.drop index) index st).result.steps.getD i
          dfltStep).errorCode = some (splitErrorMessage msg).1
      ∧ ((runLoop env options 0 (STEP_ORDER.drop index) index st).result.steps.getD i
          dfltStep).errorMessage = some (splitErrorMessage msg).2
      ∧ ((runLoop env options 0 (STEP_ORDER.drop index) index st).result.steps.getD i
          dfltStep).endedAt.isSome = true
      ∧ ((runLoop env options 0 (STEP_ORDER.drop index) index st).result.steps.getD i
          dfltStep).durationMs.isSome = true
      ∧ (∀ j, i < j → j < 6 →
          ((runLoop env options 0 (STEP_ORDER.drop index) index st).result.steps.getD j
            dfltStep).status = .PENDING) := by
  intro fuel
  induction fuel with
  | zero =>
    intro index st hfuel hle hlen htopic hpend
    have hidx : index = i := by omega
    subst hidx
    rw [STEP_ORDER_drop index hi]
    rw [runLoop_cons_exec env options 0 (stepAt index) _ index st (by simp)]
    rw [herr (markRunning st index).bundle (by rw [markRunning_bundle]; exact htopic)]
    have hlen1 : index < (markRunning st index).steps.length := by
      show index < (updateAt st.steps index _).length
      rw [length_updateAt, hlen]
      exact hi
    refine ⟨rfl, rfl, rfl, ?_, ?_, ?_, ?_, ?_, ?_⟩
    · show ((failStep (markRunning st index) index msg).steps.getD index dfltStep).status
        = .FAILED
      unfold failStep
      rw [getD_updateAt_eq _ index _ dfltStep hlen1]
    · show ((failStep (markRunning st index) index msg).steps.getD index dfltStep).errorCode
        = some (splitErrorMessage msg).1
      unfold failStep
      rw [getD_updateAt_eq _ index _ dfltStep hlen1]
    · show ((failStep (markRunning st index) index msg).steps.getD index dfltStep).errorMessage
        = some (splitErrorMessage msg).2
      unfold failStep
      rw [getD_updateAt_eq _ index _ dfltStep hlen1]
    · show ((failStep (markRunning st index) index msg).steps.getD index
          dfltStep).endedAt.isSome = true
      unfold failStep
      rw [getD_updateAt_eq _ index _ dfltStep hlen1]
      rfl
    · show ((failStep (markRunning st index) index msg).steps.getD index
          dfltStep).durationMs.isSome = true
      unfold failStep
      rw [getD_updateAt_eq _ index _ dfltStep hlen1]
      rfl
    · intro j hij hj6
      show ((failStep (markRunning st index) index msg).steps.getD j dfltStep).status
        = .PENDING
      unfold failStep
      rw [getD_updateAt_ne _ index j _ dfltStep (by omega)]
      show ((markRunning st index).steps.getD j dfltStep).status = .PENDING
      unfold markRunning
      rw [getD_updateAt_ne _ index j _ dfltStep (by omega)]
      exact hpend j (by omega) hj6
  | succ n ih =>
    intro index st hfuel hle hlen htopic hpend
    have hlt : index < i := by omega
    have hidx6 : index < 6 := by omega
    rw [STEP_ORDER_drop index hidx6]
    rw [runLoop_cons_exec env options 0 (stepAt index) _ index st (by simp)]
    obtain ⟨out, hout⟩ := hok index hlt (markRunning st index).bundle
      (by rw [markRunning_bundle]; exact htopic)
    rw [hout]
    exact ih (index + 1) (completeStep (markRunning st index) index out)
      (by omega) (by omega)
      (by
        show (updateAt (markRunning st index).steps index _).length = 6
        rw [length_updateAt]
        show (updateAt st.steps index _).length = 6
        rw [length_updateAt, hlen])
      (by
        show out.bundle.topic = options.topic
        rw [runStage_ok_topic env options (stepAt index) (markRunning st index).bundle out hout,
          markRunning_bundle]
        exact htopic)
      (by
        intro j hj1 hj6
        show ((completeStep (markRunning st index) index out).steps.getD j dfltStep).status
          = .PENDING
        unfold completeStep
        rw [getD_updateAt_ne _ index j _ dfltStep (by omega)]
        show ((markRunning st index).steps.getD j dfltStep).status = .PENDING
        unfold markRunning
        rw [getD_updateAt_ne _ index j _ dfltStep (by omega)]
        exact hpend j (by omega) hj6)

theorem overlayBundle_fresh_topic (options : WorkflowRunOptions) :
    (overlayBundle options (buildBaseBundle options)).topic = options.topic := by
  simp [overlayBundle, buildBaseBundle, jsOr_self]

theorem initSteps_none_length : (initSteps none).length = 6 := rfl

theorem initSteps_none_pending :
    ∀ j, j < 6 → ((initSteps none).getD j dfltStep).status = .PENDING := by
  intro j hj
  interval_cases j <;> rfl

/-- C2 (amended): when the stage executor at index `i` throws (and the
stages before it succeed), the runner marks that step FAILED, splits the
thrown `"<CODE>:<detail>"` message on its first colon into
`errorCode`/`errorMessage`, records `endedAt`/`durationMs`, and returns
immediately with `status = FAILED`, `failedStep` equal to that stage and
`recoverable = true`, without executing any later stage; in a run started
from a fresh step log (no persisted resume state) every step after the
failed one therefore remains `PENDING`. (On resume, unexecuted later steps
keep their persisted status instead — see the counterexample.) -/
theorem C2_stage_failure_halts (env : StageEnv) (options : WorkflowRunOptions)
    (i : Nat) (msg c d : String) (hi : i < 6)
    (herr : ∀ b, b.topic = options.topic → runStage env options (stepAt i) b = .error msg)
    (hok : ∀ j, j < i → ∀ b, b.topic = options.topic →
      ∃ out, runStage env options (stepAt j) b = .ok out)
    (hmsg : msg.data = c.data ++ ':' :: d.data)
    (hc : c ≠ "") (hcfree : ∀ ch ∈ c.data, ch ≠ ':') (hd : d ≠ "") :
    (executeWorkflowRun env options none).result.status = .FAILED
    ∧ (executeWorkflowRun env options none).result.failedStep = some (stepAt i)
    ∧ (executeWorkflowRun env options none).result.recoverable = true
    ∧ ((executeWorkflowRun env options none).result.steps.getD i dfltStep).status = .FAILED
    ∧ ((executeWorkflowRun env options none).result.steps.getD i dfltStep).errorCode = some c
    ∧ ((executeWorkflowRun env options none).result.steps.getD i dfltStep).errorMessage = some d
    ∧ ((executeWorkflowRun env options none).result.steps.getD i dfltStep).endedAt.isSome = true
    ∧ ((executeWorkflowRun env options none).result.steps.getD i dfltStep).durationMs.isSome
        = true
    ∧ (∀ j, i < j → j < 6 →
        ((executeWorkflowRun env options none).result.steps.getD j dfltStep).status
          = .PENDING) := by
  have hsplit := splitErrorMessage_spec msg c d hmsg hc hcfree hd
  have h0 := runLoop_fails_at env options msg i hi herr hok i 0
    { steps := initSteps none
      bundle := overlayBundle options (buildBaseBundle options)
      time := 0 }
    (by omega) (Nat.zero_le i) initSteps_none_length
    (overlayBundle_fresh_topic options)
    (fun j _ hj => initSteps_none_pending j hj)
  rw [List.drop_zero] at h0
  rw [executeWorkflowRun_fresh]
  rw [hsplit] at h0
  exact h0

/-- C2 counterexample: the claim's "all steps after the failed one remain
PENDING" conjunct is false for resumed runs. Resuming a fully `COMPLETED`
step log gives resume index 0 (degenerate re-run), research re-executes and
succeeds, the draft call then throws — and the returned log keeps the later
steps `COMPLETED`, not `PENDING`. -/
theorem C2_counterexample :
    (executeWorkflowRun envDraftFails optsResume
        (some (buildBaseBundle optsResume, completedLog))).result.status = .FAILED
    ∧ (executeWorkflowRun envDraftFails optsResume
        (some (buildBaseBundle optsResume, completedLog))).result.failedStep = some .draft
    ∧ ((executeWorkflowRun envDraftFails optsResume
        (some (buildBaseBundle optsResume, completedLog))).result.steps.getD 2
          dfltStep).status = .COMPLETED
    ∧ ¬((executeWorkflowRun envDraftFails optsResume
        (some (buildBaseBundle optsResume, completedLog))).result.steps.getD 2
          dfltStep).status = .PENDING := ⟨rfl, rfl, rfl, by decide⟩

/-- C2 witness: a concrete fresh run whose draft call times out; the run
fails at the draft step with the parsed code/detail pair and the rewrite step
still `PENDING`. -/
theorem C2_witness :
    (executeWorkflowRun envDraftFails optsDemo none).result.status = .FAILED
    ∧ (executeWorkflowRun envDraftFails optsDemo none).result.failedStep = some (stepAt 1)
    ∧ ((executeWorkflowRun envDraftFails optsDemo none).result.steps.getD 1 dfltStep).errorCode
        = some "PROVIDER_TIMEOUT"
    ∧ ((executeWorkflowRun envDraftFails optsDemo none).result.steps.getD 1
        dfltStep).errorMessage = some "draft call exceeded deadline"
    ∧ ((executeWorkflowRun envDraftFails optsDemo none).result.steps.getD 2 dfltStep).status
        = .PENDING := by
  have h := C2_stage_failure_halts envDraftFails optsDemo 1
    "PROVIDER_TIMEOUT:draft call exceeded deadline" "PROVIDER_TIMEOUT"
    "draft call exceeded deadline"
    (by norm_num)
    (fun b hb => rfl)
    (by
      intro j hj b hb
      interval_cases j
      exact ⟨_, by
        show runResearch envDraftFails b = _
        unfold runResearch
        rw [if_neg (by rw [hb]; decide)]
        rfl⟩)
    (by decide) (by decide) (by decide) (by decide)
  exact ⟨h.1, h.2.1, h.2.2.2.2.1, h.2.2.2.2.2.1,
    h.2.2.2.2.2.2.2.2 2 (by norm_num) (by norm_num)⟩

/-! ## Step-log invariant (claim C5) -/

theorem getD_of_mem {α : Type} (l : List α) (s : α) (d : α) (h : s ∈ l) :
    ∃ j, j < l.length ∧ l.getD j d = s := by
  induction l with
  | nil => simp at h
  | cons x xs ih =>
    rcases List.mem_cons.mp h with rfl | h2
    · exact ⟨0, by simp, rfl⟩
    · obtain ⟨j, hj, hg⟩ := ih h2
      exact ⟨j + 1, by simpa using hj, by simpa using hg⟩

theorem markRunning_length (st : RunState) (index : Nat) :
    (markRunning st index).steps.length = st.steps.length := by
  unfold markRunning
  exact length_updateAt _ _ _

theorem completeStep_length (st : RunState) (index : Nat) (out : StageOutcome) :
    (completeStep st index out).steps.length = st.steps.length := by
  unfold completeStep
  exact length_updateAt _ _ _

theorem failStep_length (st : RunState) (index : Nat) (msg : String) :
    (failStep st index msg).steps.length = st.steps.length := by
  unfold failStep
  exact length_updateAt _ _ _

theorem markRunning_status_eq (st : RunState) (index : Nat) (h : index < st.steps.length) :
    ((markRunning st index).steps.getD index dfltStep).status = .RUNNING := by
  unfold markRunning
  rw [getD_updateAt_eq _ _ _ _ h]

theorem markRunning_getD_ne (st : RunState) (index j : Nat) (h : index ≠ j) :
    (markRunning st index).steps.getD j dfltStep = st.steps.getD j dfltStep := by
  unfold markRunning
  exact getD_updateAt_ne _ _ _ _ _ h

theorem completeStep_status_eq (st : RunState) (index : Nat) (out : StageOutcome)
    (h : index < st.steps.length) :
    ((completeStep st index out).steps.getD index dfltStep).status = .COMPLETED := by
  unfold completeStep
  rw [getD_updateAt_eq _ _ _ _ h]

theorem completeStep_getD_ne (st : RunState) (index j : Nat) (out : StageOutcome)
    (h : index ≠ j) :
    (completeStep st index out).steps.getD j dfltStep = st.steps.getD j dfltStep := by
  unfold completeStep
  exact getD_updateAt_ne _ _ _ _ _ h

theorem failStep_status_eq (st : RunState) (index : Nat) (msg : String)
    (h : index < st.steps.length) :
    ((failStep st index msg).steps.getD index dfltStep).status = .FAILED := by
  unfold failStep
  rw [getD_updateAt_eq _ _ _ _ h]

theorem failStep_getD_ne (st : RunState) (index j : Nat) (msg : String) (h : index ≠ j) :
    (failStep st index msg).steps.getD j dfltStep = st.steps.getD j dfltStep := by
  unfold failStep
  exact getD_updateAt_ne _ _ _ _ _ h

theorem atMostOne_of_unique (steps : List WorkflowStepLog) (index : Nat)
    (h : ∀ k, k < steps.length → (steps.getD k dfltStep).status = .RUNNING → k = index) :
    atMostOneRunning steps :=
  fun i j hi hj hri hrj => (h i hi hri).trans (h j hj hrj).symm

theorem completedPrefix_of (steps : List WorkflowStepLog) (b : Nat)
    (hlen : steps.length = 6)
    (hlt : ∀ j, j < b → (steps.getD j dfltStep).status = .COMPLETED)
    (hgt : ∀ j, b < j → j < 6 → (steps.getD j dfltStep).status = .PENDING) :
    completedPrefix steps := by
  intro i j hij hj hstat
  have hji : j ≤ b := by
    by_contra hcon
    exact hstat (hgt j (by omega) (by omega))
  exact hlt i (by omega)

theorem runLoop_invariant (env : StageEnv) (options : WorkflowRunOptions) :
    ∀ (fuel index : Nat) (st : RunState), fuel = 6 - index →
      st.steps.length = 6 →
      (∀ j, j < index → (st.steps.getD j dfltStep).status = .COMPLETED) →
      (∀ j, index ≤ j → j < 6 → (st.steps.getD j dfltStep).status = .PENDING) →
      (∀ s ∈ (runLoop env options 0 (STEP_ORDER.drop index) index st).trace,
        atMostOneRunning s.steps ∧ completedPrefix s.steps)
      ∧ (∀ s ∈ (runLoop env options 0 (STEP_ORDER.drop index) index st).result.steps,
        s.status ≠ .RUNNING) := by
  intro fuel
  induction fuel with
  | zero =>
    intro index st hfuel hlen hdone hpend
    have h6 : 6 ≤ index := by omega
    rw [STEP_ORDER_drop_ge index h6, runLoop_nil]
    refine ⟨fun s hs => absurd hs (by simp), fun s hs => ?_⟩
    obtain ⟨j, hj, hg⟩ := getD_of_mem st.steps s dfltStep hs
    rw [← hg]
    rw [hdone j (by omega)]
    simp
  | succ n ih =>
    intro index st hfuel hlen hdone hpend
    have hidx6 : index < 6 := by omega
    rw [STEP_ORDER_drop index hidx6]
    rw [runLoop_cons_exec env options 0 (stepAt index) _ index st (by simp)]
    have hidxlen : index < st.steps.length := by omega
    have hP1 : atMostOneRunning (markRunning st index).steps
        ∧ completedPrefix (markRunning st index).steps := by
      constructor
      · refine atMostOne_of_unique _ index (fun k hk hr => ?_)
        by_contra hkne
        rw [markRunning_getD_ne st index k (fun he => hkne he.symm)] at hr
        have hk6 : k < 6 := by
          rw [markRunning_length] at hk
          omega
        rcases Nat.lt_or_ge k index with hlt | hge
        · rw [hdone k hlt] at hr
          exact WorkflowStepStatus.noConfusion hr
        · rw [hpend k hge hk6] at hr
          exact WorkflowStepStatus.noConfusion hr
      · refine completedPrefix_of _ index (by rw [markRunning_length, hlen]) ?_ ?_
        · intro j hj
          rw [markRunning_getD_ne st index j (by omega)]
          exact hdone j hj
        · intro j hbj hj6
          rw [markRunning_getD_ne st index j (by omega)]
          exact hpend j (by omega) hj6
    cases hstage : runStage env options (stepAt index) (markRunning st index).bundle with
    | ok out =>
      have hnext := ih (index + 1) (completeStep (markRunning st index) index out)
        (by omega)
        (by rw [completeStep_length, markRunning_length, hlen])
        (by
          intro j hj
          rcases Nat.lt_or_ge j index with hlt | hge
          · rw [completeStep_getD_ne _ index j out (by omega),
              markRunning_getD_ne st index j (by omega)]
            exact hdone j hlt
          · have hji : j = index := by omega
            rw [hji]
            exact completeStep_status_eq _ index out
              (by rw [markRunning_length]; exact hidxlen))
        (by
          intro j hj1 hj6
          rw [completeStep_getD_ne _ index j out (by omega),
            markRunning_getD_ne st index j (by omega)]
          exact hpend j (by omega) hj6)
      have hP2 : atMostOneRunning (completeStep (markRunning st index) index out).steps
          ∧ completedPrefix (completeStep (markRunning st index) index out).steps := by
        constructor
        · refine atMostOne_of_unique _ index (fun k hk hr => ?_)
          exfalso
          have hk6 : k < 6 := by
            rw [completeStep_length, markRunning_length] at hk
            omega
          rcases Nat.lt_or_ge k index with hlt | hge
          · rw [completeStep_getD_ne _ index k out (by omega),
              markRunning_getD_ne st index k (by omega), hdone k hlt] at hr
            exact WorkflowStepStatus.noConfusion hr
          · rcases Nat.eq_or_lt_of_le hge with heq | hgt
            · rw [← heq] at hr
              rw [completeStep_status_eq _ index out
                (by rw [markRunning_length]; exact hidxlen)] at hr
              exact WorkflowStepStatus.noConfusion hr
            · rw [completeStep_getD_ne _ index k out (by omega),
                markRunning_getD_ne st index k (by omega), hpend k (by omega) hk6] at hr
              exact WorkflowStepStatus.noConfusion hr
        · refine completedPrefix_of _ (index + 1)
            (by rw [completeStep_length, markRunning_length, hlen]) ?_ ?_
          · intro j hj
            rcases Nat.lt_or_ge j index with hlt | hge
            · rw [completeStep_getD_ne _ index j out (by omega),
                markRunning_getD_ne st index j (by omega)]
              exact hdone j hlt
            · have hji : j = index := by omega
              rw [hji]
              exact completeStep_status_eq _ index out
                (by rw [markRunning_length]; exact hidxlen)
          · intro j hbj hj6
            rw [completeStep_getD_ne _ index j out (by omega),
              markRunning_getD_ne st index j (by omega)]
            exact hpend j (by omega) hj6
      refine ⟨fun s hs => ?_, hnext.2⟩
      rcases List.mem_cons.mp hs with rfl | hs2
      · exact hP1
      · rcases List.mem_cons.mp hs2 with rfl | hs3
        · exact hP2
        · exact hnext.1 s hs3
    | error msg =>
      have hfail_lt : ∀ j, j < index →
          ((failStep (markRunning st index) index msg).steps.getD j dfltStep).status
            = .COMPLETED := by
        intro j hj
        rw [failStep_getD_ne _ index j msg (by omega),
          markRunning_getD_ne st index j (by omega)]
        exact hdone j hj
      have hfail_gt : ∀ j, index < j → j < 6 →
          ((failStep (markRunning st index) index msg).steps.getD j dfltStep).status
            = .PENDING := by
        intro j hbj hj6
        rw [failStep_getD_ne _ index j msg (by omega),
          markRunning_getD_ne st index j (by omega)]
        exact hpend j (by omega) hj6
      have hfail_at : ((failStep (markRunning st index) index msg).steps.getD index
          dfltStep).status = .FAILED :=
        failStep_status_eq _ index msg (by rw [markRunning_length]; omega)
      have hP2 : atMostOneRunning (failStep (markRunning st index) index msg).steps
          ∧ completedPrefix (failStep (markRunning st index) index msg).steps := by
        constructor
        · refine atMostOne_of_unique _ index (fun k hk hr => ?_)
          exfalso
          have hk6 : k < 6 := by
            rw [failStep_length, markRunning_length] at hk
            omega
          rcases Nat.lt_or_ge k index with hlt | hge
          · rw [hfail_lt k hlt] at hr
            exact WorkflowStepStatus.noConfusion hr
          · rcases Nat.eq_or_lt_of_le hge with heq | hgt
            · rw [← heq] at hr
              rw [hfail_at] at hr
              exact WorkflowStepStatus.noConfusion hr
            · rw [hfail_gt k (by omega) hk6] at hr
              exact WorkflowStepStatus.noConfusion hr
        · exact completedPrefix_of _ index
            (by rw [failStep_length, markRunning_length, hlen]) hfail_lt hfail_gt
      refine ⟨fun s hs => ?_, fun s hs => ?_⟩
      · rcases List.mem_cons.mp hs with rfl | hs2
        · exact hP1
        · rcases List.mem_cons.mp hs2 with rfl | hs3
          · exact hP2
          · simp at hs3
      · have hs2 : s ∈ (failStep (markRunning st index) index msg).steps := hs
        obtain ⟨j, hj, hg⟩ := getD_of_mem _ s dfltStep hs2
        rw [← hg]
        have hj6 : j < 6 := by
          rw [failStep_length, markRunning_length] at hj
          omega
        rcases Nat.lt_or_ge j index with hlt | hge
        · rw [hfail_lt j hlt]
          simp
        · rcases Nat.eq_or_lt_of_le hge with heq | hgt
          · rw [← heq]
            rw [hfail_at]
            simp
          · rw [hfail_gt j (by omega) hj6]
            simp

/-- C5: in every run started from a fresh step log, every intermediate state
of the loop has at most one `RUNNING` step and a completed prefix (every step
before a non-`PENDING` step is `COMPLETED`), and the returned terminal step
log contains no `RUNNING` step. -/
theorem C5_stepLog_invariant (env : StageEnv) (options : WorkflowRunOptions) :
    (∀ s ∈ (executeWorkflowRun env options none).trace,
        atMostOneRunning s.steps ∧ completedPrefix s.steps)
    ∧ (∀ s ∈ (executeWorkflowRun env options none).result.steps, s.status ≠ .RUNNING) := by
  rw [executeWorkflowRun_fresh]
  have h := runLoop_invariant env options 6 0
    { steps := initSteps none
      bundle := overlayBundle options (buildBaseBundle options)
      time := 0 }
    rfl initSteps_none_length
    (fun j hj => absurd hj (Nat.not_lt_zero j))
    (fun j _ hj => initSteps_none_pending j hj)
  rw [List.drop_zero] at h
  exact h

/-- C5 witness: the terminal-state conjunct applied to a concrete run and a
concrete returned step-log entry. -/
theorem C5_witness :
    ((executeWorkflowRun envAllCallsFail optsDemo none).result.steps.getD 0 dfltStep).status
      ≠ .RUNNING := by
  exact (C5_stepLog_invariant envAllCallsFail optsDemo).2 _ (by decide)

/-! ## Resume-index characterisation (claim C4) -/

theorem findIdx?_from_some {α : Type} (p : α → Bool) :
    ∀ (l : List α) (i k : Nat) (d : α), i < l.length → p (l.getD i d) = true →
      (∀ j, j < i → p (l.getD j d) = false) →
      l.findIdx? p k = some (k + i) := by
  intro l
  induction l with
  | nil =>
    intro i k d hi
    simp at hi
  | cons x xs ih =>
    intro i k d hi hp hmin
    cases i with
    | zero =>
      have hx : p x = true := hp
      simp [List.findIdx?_cons, hx]
    | succ n =>
      have hx : p x = false := hmin 0 (Nat.succ_pos n)
      rw [List.findIdx?_cons, hx]
      simp only [Bool.false_eq_true, if_false]
      have := ih n (k + 1) d (by simpa using hi) hp
        (fun j hj => hmin (j + 1) (by omega))
      rw [this]
      congr 1
      omega

theorem findIdx?_from_none {α : Type} (p : α → Bool) :
    ∀ (l : List α) (k : Nat) (d : α), (∀ j, j < l.length → p (l.getD j d) = false) →
      l.findIdx? p k = none := by
  intro l
  induction l with
  | nil =>
    intro k d hall
    simp [List.findIdx?_nil]
  | cons x xs ih =>
    intro k d hall
    have hx : p x = false := hall 0 (by simp)
    rw [List.findIdx?_cons, hx]
    simp only [Bool.false_eq_true, if_false]
    exact ih (k + 1) d (fun j hj => hall (j + 1) (by simpa using hj))

theorem findResumeIndex_of_failed (steps : List WorkflowStepLog) (i : Nat)
    (hi : i < steps.length) (hf : (steps.getD i dfltStep).status = .FAILED)
    (hmin : ∀ j, j < i → (steps.getD j dfltStep).status ≠ .FAILED) :
    findResumeIndex steps = i := by
  unfold findResumeIndex
  rw [findIdx?_from_some _ steps i 0 dfltStep hi
    (by show ((steps.getD i dfltStep).status == WorkflowStepStatus.FAILED) = true; rw [hf]; rfl)
    (fun j hj => by
      show ((steps.getD j dfltStep).status == WorkflowStepStatus.FAILED) = false
      rw [beq_eq_false_iff_ne]
      exact hmin j hj)]
  simp

theorem findResumeIndex_of_pending (steps : List WorkflowStepLog) (i : Nat)
    (hnf : ∀ j, j < steps.length → (steps.getD j dfltStep).status ≠ .FAILED)
    (hi : i < steps.length)
    (hp : (steps.getD i dfltStep).status = .PENDING
      ∨ (steps.getD i dfltStep).status = .RUNNING)
    (hmin : ∀ j, j < i → (steps.getD j dfltStep).status ≠ .PENDING
      ∧ (steps.getD j dfltStep).status ≠ .RUNNING) :
    findResumeIndex steps = i := by
  unfold findResumeIndex
  rw [findIdx?_from_none _ steps 0 dfltStep (fun j hj => by
    show ((steps.getD j dfltStep).status == WorkflowStepStatus.FAILED) = false
    rw [beq_eq_false_iff_ne]
    exact hnf j hj)]
  rw [findIdx?_from_some _ steps i 0 dfltStep hi
    (by
      show ((steps.getD i dfltStep).status == WorkflowStepStatus.PENDING
        || (steps.getD i dfltStep).status == WorkflowStepStatus.RUNNING) = true
      rcases hp with hp | hp <;> rw [hp] <;> rfl)
    (fun j hj => by
      obtain ⟨h1, h2⟩ := hmin j hj
      show ((steps.getD j dfltStep).status == WorkflowStepStatus.PENDING
        || (steps.getD j dfltStep).status == WorkflowStepStatus.RUNNING) = false
      rw [Bool.or_eq_false_iff, beq_eq_false_iff_ne, beq_eq_false_iff_ne]
      exact ⟨h1, h2⟩)]
  simp

theorem findResumeIndex_of_completed (steps : List WorkflowStepLog)
    (hall : ∀ j, j < steps.length → (steps.getD j dfltStep).status = .COMPLETED) :
    findResumeIndex steps = 0 := by
  unfold findResumeIndex
  rw [findIdx?_from_none _ steps 0 dfltStep (fun j hj => by
    show ((steps.getD j dfltStep).status == WorkflowStepStatus.FAILED) = false
    rw [hall j hj]
    rfl)]
  rw [findIdx?_from_none _ steps 0 dfltStep (fun j hj => by
    show ((steps.getD j dfltStep).status == WorkflowStepStatus.PENDING
      || (steps.getD j dfltStep).status == WorkflowStepStatus.RUNNING) = false
    rw [hall j hj]
    rfl)]

theorem executeWorkflowRun_resume (env : StageEnv) (options : WorkflowRunOptions)
    (pb : WorkflowBundle) (psteps : List WorkflowStepLog)
    (hres : options.resumeTaskId.isSome = true) :
    executeWorkflowRun env options (some (pb, psteps)) =
      runLoop env options (findResumeIndex (initSteps (some psteps))) STEP_ORDER 0
        { steps := initSteps (some psteps)
          bundle := overlayBundle options pb
          time := 0 } := by
  unfold executeWorkflowRun
  rw [if_pos hres]
  rfl

/-! ## The all-stages-succeed path of the runner loop (claims C4 and C7) -/

theorem runResearch_ok_platforms (env : StageEnv) (b : WorkflowBundle) (out : StageOutcome)
    (h : runResearch env b = .ok out) : out.bundle.platforms = b.platforms := by
  unfold runResearch at h
  repeat' split at h
  all_goals
    first
      | exact Except.noConfusion h
      | (simp only [Except.ok.injEq] at h; subst h; rfl)

theorem runDraft_ok_platforms (env : StageEnv) (b : WorkflowBundle) (out : StageOutcome)
    (h : runDraft env b = .ok out) : out.bundle.platforms = b.platforms := by
  unfold runDraft at h
  repeat' split at h
  all_goals
    first
      | exact Except.noConfusion h
      | (simp only [Except.ok.injEq] at h; subst h; rfl)

theorem runRewrite_ok_platforms (env : StageEnv) (b : WorkflowBundle) (out : StageOutcome)
    (h : runRewrite env b = .ok out) : out.bundle.platforms = b.platforms := by
  unfold runRewrite at h
  repeat' split at h
  all_goals
    first
      | exact Except.noConfusion h
      | (simp only [Except.ok.injEq] at h; subst h; rfl)

theorem runAssets_ok_platforms (env : StageEnv) (g : Option Bool) (b : WorkflowBundle)
    (out : StageOutcome)
    (h : runAssets env g b = .ok out) : out.bundle.platforms = b.platforms := by
  unfold runAssets at h
  repeat' split at h
  all_goals
    first
      | exact Except.noConfusion h
      | (simp only [Except.ok.injEq] at h; subst h; rfl)

theorem runPublish_ok_platforms (env : StageEnv) (g : Option Bool) (b : WorkflowBundle)
    (out : StageOutcome)
    (h : runPublish env g b = .ok out) : out.bundle.platforms = b.platforms := by
  unfold runPublish at h
  repeat' split at h
  all_goals
    first
      | exact Except.noConfusion h
      | (simp only [Except.ok.injEq] at h; subst h; rfl)

theorem runAnalytics_ok_platforms (env : StageEnv) (b : WorkflowBundle) (out : StageOutcome)
    (h : runAnalytics env b = .ok out) : out.bundle.platforms = b.platforms := by
  unfold runAnalytics at h
  repeat' split at h
  all_goals
    first
      | exact Except.noConfusion h
      | (simp only [Except.ok.injEq] at h; subst h; rfl)

theorem runStage_ok_platforms (env : StageEnv) (options : WorkflowRunOptions)
    (key : WorkflowStepKey) (b : WorkflowBundle) (out : StageOutcome)
    (h : runStage env options key b = .ok out) : out.bundle.platforms = b.platforms := by
  cases key with
  | research => exact runResearch_ok_platforms env b out h
  | draft => exact runDraft_ok_platforms env b out h
  | rewrite => exact runRewrite_ok_platforms env b out h
  | assets => exact runAssets_ok_platforms env options.generateAsset b out h
  | publish => exact runPublish_ok_platforms env options.publishToWordpress b out h
  | analytics => exact runAnalytics_ok_platforms env b out h

theorem getD_irrel {α : Type} (l : List α) (i : Nat) (d1 d2 : α) (h : i < l.length) :
    l.getD i d1 = l.getD i d2 := by
  induction l generalizing i with
  | nil => simp at h
  | cons x xs ih =>
    cases i with
    | zero => rfl
    | succ n => exact ih n (by simpa using h)

theorem runLoop_success (env : StageEnv) (options : WorkflowRunOptions) (r : Nat)
    (t : String) (ps : List String)
    (hok : ∀ j, j < 6 → ∀ b, b.topic = t → b.platforms = ps →
      ∃ out, runStage env options (stepAt j) b = .ok out) :
    ∀ (fuel index : Nat) (st : RunState), fuel = 6 - index →
      st.steps.length = 6 →
      st.bundle.topic = t →
      st.bundle.platforms = ps →
      (runLoop env options r (STEP_ORDER.drop index) index st).result.status = .COMPLETED
      ∧ (runLoop env options r (STEP_ORDER.drop index) index st).result.recoverable = false
      ∧ (∀ i, index ≤ i → i < 6 →
          (i ∈ (runLoop env options r (STEP_ORDER.drop index) index st).executed ↔
            ¬(i < r ∧ (st.steps.getD i dfltStep).status = .COMPLETED)))
      ∧ (∀ i, i ∈ (runLoop env options r (STEP_ORDER.drop index) index st).executed →
          index ≤ i ∧ i < 6) := by
  intro fuel
  induction fuel with
  | zero =>
    intro index st hfuel hlen htopic hplat
    have h6 : 6 ≤ index := by omega
    rw [STEP_ORDER_drop_ge index h6, runLoop_nil]
    refine ⟨rfl, rfl, fun i hi1 hi2 => absurd (by omega : i < i) (lt_irrefl i), ?_⟩
    intro i hi
    simp at hi
  | succ n ih =>
    intro index st hfuel hlen htopic hplat
    have hidx6 : index < 6 := by omega
    rw [STEP_ORDER_drop index hidx6]
    by_cases hskip : index < r ∧ (st.steps.getD index (freshStep (stepAt index))).status
        = .COMPLETED
    · rw [runLoop_cons_skip env options r (stepAt index) _ index st hskip]
      have hnext := ih (index + 1) st (by omega) hlen htopic hplat
      refine ⟨hnext.1, hnext.2.1, ?_, ?_⟩
      · intro i hi1 hi2
        rcases Nat.eq_or_lt_of_le hi1 with heq | hgt
        · constructor
          · intro hmem
            obtain ⟨hge, -⟩ := hnext.2.2.2 i hmem
            omega
          · intro hcon
            exfalso
            apply hcon
            refine ⟨by omega, ?_⟩
            rw [← heq, getD_irrel st.steps index dfltStep (freshStep (stepAt index)) (by omega)]
            exact hskip.2
        · rw [hnext.2.2.1 i (by omega) hi2]
      · intro i hi
        obtain ⟨hge, hlt⟩ := hnext.2.2.2 i hi
        exact ⟨by omega, hlt⟩
    · rw [runLoop_cons_exec env options r (stepAt index) _ index st hskip]
      obtain ⟨out, hout⟩ := hok index hidx6 (markRunning st index).bundle
        (by rw [markRunning_bundle]; exact htopic)
        (by rw [markRunning_bundle]; exact hplat)
      rw [hout]
      have hnext := ih (index + 1) (completeStep (markRunning st index) index out)
        (by omega)
        (by rw [completeStep_length, markRunning_length, hlen])
        (by
          show out.bundle.topic = t
          rw [runStage_ok_topic env options (stepAt index) (markRunning st index).bundle
            out hout, markRunning_bundle]
          exact htopic)
        (by
          show out.bundle.platforms = ps
          rw [runStage_ok_platforms env options (stepAt index) (markRunning st index).bundle
            out hout, markRunning_bundle]
          exact hplat)
      refine ⟨hnext.1, hnext.2.1, ?_, ?_⟩
      · intro i hi1 hi2
        rcases Nat.eq_or_lt_of_le hi1 with heq | hgt
        · rw [← heq]
          simp only [List.mem_cons]
          constructor
          · intro _
            intro hcon
            apply hskip
            refine ⟨hcon.1, ?_⟩
            rw [getD_irrel st.steps index (freshStep (stepAt index)) dfltStep (by omega)]
            exact hcon.2
          · intro _
            left
            trivial
        · simp only [List.mem_cons]
          constructor
          · rintro (rfl | hmem)
            · omega
            · have h2 := (hnext.2.2.1 i (by omega) hi2).mp hmem
              rw [completeStep_getD_ne _ index i out (by omega),
                markRunning_getD_ne st index i (by omega)] at h2
              exact h2
          · intro hcon
            refine Or.inr ((hnext.2.2.1 i (by omega) hi2).mpr ?_)
            rw [completeStep_getD_ne _ index i out (by omega),
              markRunning_getD_ne st index i (by omega)]
            exact hcon
      · intro i hi
        simp only [List.mem_cons] at hi
        rcases hi with rfl | hi
        · exact ⟨le_refl i, hidx6⟩
        · obtain ⟨hge, hlt⟩ := hnext.2.2.2 i hi
          exact ⟨by omega, hlt⟩

theorem initSteps_length (o : Option (List WorkflowStepLog)) :
    (initSteps o).length = 6 := by
  cases o with
  | none => rfl
  | some l =>
    by_cases hl : l.length = 0
    · simp [initSteps, hl, STEP_ORDER]
    · simp [initSteps, hl, STEP_ORDER]

/-- C4: the resume index is the first `FAILED` step, else the first
`PENDING`/`RUNNING` step, else 0 when every step is `COMPLETED`; and in a
resumed run in which every invoked stage succeeds, a stage is skipped (not
executed) exactly when its index is below the resume index and its persisted
status is already `COMPLETED`, so every stage at or after the resume index is
executed. -/
theorem C4_resume_semantics :
    (∀ (steps : List WorkflowStepLog) (i : Nat), i < steps.length →
        (steps.getD i dfltStep).status = .FAILED →
        (∀ j, j < i → (steps.getD j dfltStep).status ≠ .FAILED) →
        findResumeIndex steps = i)
    ∧ (∀ (steps : List WorkflowStepLog) (i : Nat),
        (∀ j, j < steps.length → (steps.getD j dfltStep).status ≠ .FAILED) →
        i < steps.length →
        ((steps.getD i dfltStep).status = .PENDING
          ∨ (steps.getD i dfltStep).status = .RUNNING) →
        (∀ j, j < i → (steps.getD j dfltStep).status ≠ .PENDING
          ∧ (steps.getD j dfltStep).status ≠ .RUNNING) →
        findResumeIndex steps = i)
    ∧ (∀ steps : List WorkflowStepLog,
        (∀ j, j < steps.length → (steps.getD j dfltStep).status = .COMPLETED) →
        findResumeIndex steps = 0)
    ∧ (∀ (env : StageEnv) (options : WorkflowRunOptions) (pb : WorkflowBundle)
        (psteps : List WorkflowStepLog),
        options.resumeTaskId.isSome = true →
        (∀ j, j < 6 → ∀ b, b.topic = (overlayBundle options pb).topic →
          b.platforms = (overlayBundle options pb).platforms →
          ∃ out, runStage env options (stepAt j) b = .ok out) →
        ∀ i, i < 6 →
          ((i ∈ (executeWorkflowRun env options (some (pb, psteps))).executed ↔
            ¬(i < findResumeIndex (initSteps (some psteps))
              ∧ ((initSteps (some psteps)).getD i dfltStep).status = .COMPLETED))
          ∧ (findResumeIndex (initSteps (some psteps)) ≤ i →
              i ∈ (executeWorkflowRun env options (some (pb, psteps))).executed))) := by
  refine ⟨findResumeIndex_of_failed, findResumeIndex_of_pending,
    findResumeIndex_of_completed, ?_⟩
  intro env options pb psteps hres hok i hi
  rw [executeWorkflowRun_resume env options pb psteps hres]
  have h := runLoop_success env options (findResumeIndex (initSteps (some psteps)))
    (overlayBundle options pb).topic (overlayBundle options pb).platforms hok 6 0
    { steps := initSteps (some psteps)
      bundle := overlayBundle options pb
      time := 0 }
    (by norm_num) (initSteps_length (some psteps)) rfl rfl
  rw [List.drop_zero] at h
  have hiff := h.2.2.1 i (Nat.zero_le i) hi
  exact ⟨hiff, fun hle => hiff.mpr (fun hcon => absurd hcon.1 (not_lt.mpr hle))⟩

set_option maxRecDepth 8000 in
/-- C4 witness: resuming a log with research `COMPLETED` and draft `FAILED`
gives resume index 1; research is skipped and draft is re-executed. -/
theorem C4_witness :
    findResumeIndex (initSteps (some resumeLog)) = 1
    ∧ 0 ∉ (executeWorkflowRun envAllCallsSucceed optsResume
        (some (buildBaseBundle optsResume, resumeLog))).executed
    ∧ 1 ∈ (executeWorkflowRun envAllCallsSucceed optsResume
        (some (buildBaseBundle optsResume, resumeLog))).executed := by
  have hfri : findResumeIndex (initSteps (some resumeLog)) = 1 := rfl
  have h4 := C4_resume_semantics.2.2.2 envAllCallsSucceed optsResume
    (buildBaseBundle optsResume) resumeLog rfl
    (by
      intro j hj b hb hp
      interval_cases j
      · exact ⟨_, by
          show runResearch envAllCallsSucceed b = _
          unfold runResearch
          rw [if_neg (by rw [hb]; decide)]
          rfl⟩
      · exact ⟨_, rfl⟩
      · exact ⟨_, by
          show runRewrite envAllCallsSucceed b = _
          unfold runRewrite
          rw [hp]
          rfl⟩
      · exact ⟨_, rfl⟩
      · exact ⟨_, rfl⟩
      · exact ⟨_, rfl⟩)
  refine ⟨hfri, ?_, ?_⟩
  · intro hmem
    exact (h4 0 (by norm_num)).1.mp hmem ⟨by rw [hfri]; norm_num, by decide⟩
  · exact (h4 1 (by norm_num)).2 (by rw [hfri])

/-! ## The skipped assets stage (claim C7) -/

theorem runLoop_tail_preserves (env : StageEnv) (options : WorkflowRunOptions)
    (t : String) (ps : List String)
    (hok : ∀ j, 4 ≤ j → j < 6 → ∀ b, b.topic = t → b.platforms = ps →
      ∃ out, runStage env options (stepAt j) b = .ok out) :
    ∀ (fuel index : Nat) (st : RunState), fuel = 6 - index → 4 ≤ index →
      st.steps.length = 6 → st.bundle.topic = t → st.bundle.platforms = ps →
      (runLoop env options 0 (STEP_ORDER.drop index) index st).result.status = .COMPLETED
      ∧ (runLoop env options 0 (STEP_ORDER.drop index) index st).result.steps.getD 3 dfltStep
          = st.steps.getD 3 dfltStep
      ∧ (runLoop env options 0 (STEP_ORDER.drop index) index st).result.bundle.assets
          = st.bundle.assets := by
  intro fuel
  induction fuel with
  | zero =>
    intro index st hfuel h4 hlen htopic hplat
    have h6 : 6 ≤ index := by omega
    rw [STEP_ORDER_drop_ge index h6, runLoop_nil]
    exact ⟨rfl, rfl, rfl⟩
  | succ n ih =>
    intro index st hfuel h4 hlen htopic hplat
    have hidx6 : index < 6 := by omega
    rw [STEP_ORDER_drop index hidx6]
    rw [runLoop_cons_exec env options 0 (stepAt index) _ index st (by simp)]
    obtain ⟨out, hout⟩ := hok index h4 hidx6 (markRunning st index).bundle
      (by rw [markRunning_bundle]; exact htopic)
      (by rw [markRunning_bundle]; exact hplat)
    rw [hout]
    have hassets : out.bundle.assets = st.bundle.assets := by
      have h45 : index = 4 ∨ index = 5 := by omega
      rcases h45 with rfl | rfl
      · rw [runPublish_ok_assets env options.publishToWordpress
          (markRunning st 4).bundle out hout, markRunning_bundle]
      · rw [runAnalytics_ok_assets env (markRunning st 5).bundle out hout,
          markRunning_bundle]
    have hnext := ih (index + 1) (completeStep (markRunning st index) index out)
      (by omega) (by omega)
      (by rw [completeStep_length, markRunning_length, hlen])
      (by
        show out.bundle.topic = t
        rw [runStage_ok_topic env options (stepAt index) (markRunning st index).bundle
          out hout, markRunning_bundle]
        exact htopic)
      (by
        show out.bundle.platforms = ps
        rw [runStage_ok_platforms env options (stepAt index) (markRunning st index).bundle
          out hout, markRunning_bundle]
        exact hplat)
    refine ⟨hnext.1, ?_, ?_⟩
    · rw [hnext.2.1]
      rw [completeStep_getD_ne _ index 3 out (by omega),
        markRunning_getD_ne st index 3 (by omega)]
    · rw [hnext.2.2]
      show out.bundle.assets = st.bundle.assets
      exact hassets

/-- The concrete stage outcome of the disabled assets stage. -/
theorem runAssets_skip (env : StageEnv) (g : Option Bool) (b : WorkflowBundle)
    (hg : g ≠ some true) :
    runAssets env g b = .ok
      { provider := "skipped"
        validation := verifyAssetResult "skipped://asset" "skipped"
        bundle := { b with assets := some {
            imageUrl := "", provider := "skipped"
            note := some "asset step skipped by workflow option" } } } := by
  unfold runAssets
  rw [if_pos hg]

theorem runLoop_skipAssets (env : StageEnv) (options : WorkflowRunOptions)
    (t : String) (ps : List String)
    (hga : options.generateAsset ≠ some true)
    (hok03 : ∀ j, j < 3 → ∀ b, b.topic = t → b.platforms = ps →
      ∃ out, runStage env options (stepAt j) b = .ok out)
    (hok46 : ∀ j, 4 ≤ j → j < 6 → ∀ b, b.topic = t → b.platforms = ps →
      ∃ out, runStage env options (stepAt j) b = .ok out) :
    ∀ (fuel index : Nat) (st : RunState), fuel = 3 - index → index ≤ 3 →
      st.steps.length = 6 → st.bundle.topic = t → st.bundle.platforms = ps →
      (runLoop env options 0 (STEP_ORDER.drop index) index st).result.status = .COMPLETED
      ∧ ((runLoop env options 0 (STEP_ORDER.drop index) index st).result.steps.getD 3
          dfltStep).status = .COMPLETED
      ∧ ((runLoop env options 0 (STEP_ORDER.drop index) index st).result.steps.getD 3
          dfltStep).provider = some "skipped"
      ∧ ((runLoop env options 0 (STEP_ORDER.drop index) index st).result.steps.getD 3
          dfltStep).validation = some (verifyAssetResult "skipped://asset" "skipped")
      ∧ (runLoop env options 0 (STEP_ORDER.drop index) index st).result.bundle.assets
          = some { imageUrl := "", provider := "skipped"
                   note := some "asset step skipped by workflow option" } := by
  intro fuel
  induction fuel with
  | zero =>
    intro index st hfuel hle hlen htopic hplat
    have hidx : index = 3 := by omega
    subst hidx
    rw [STEP_ORDER_drop 3 (by norm_num)]
    rw [runLoop_cons_exec env options 0 (stepAt 3) _ 3 st (by simp)]
    have hstage : runStage env options (stepAt 3) (markRunning st 3).bundle = .ok
        { provider := "skipped"
          validation := verifyAssetResult "skipped://asset" "skipped"
          bundle := { (markRunning st 3).bundle with assets := some {
              imageUrl := "", provider := "skipped"
              note := some "asset step skipped by workflow option" } } } :=
      runAssets_skip env options.generateAsset (markRunning st 3).bundle hga
    rw [hstage]
    have h3len : 3 < (markRunning st 3).steps.length := by
      rw [markRunning_length, hlen]
      norm_num
    have htail := runLoop_tail_preserves env options t ps hok46 2 4
      (completeStep (markRunning st 3) 3
        { provider := "skipped"
          validation := verifyAssetResult "skipped://asset" "skipped"
          bundle := { (markRunning st 3).bundle with assets := some {
              imageUrl := "", provider := "skipped"
              note := some "asset step skipped by workflow option" } } })
      (by norm_num) (by norm_num)
      (by rw [completeStep_length, markRunning_length, hlen])
      (by
        show (markRunning st 3).bundle.topic = t
        rw [markRunning_bundle]
        exact htopic)
      (by
        show (markRunning st 3).bundle.platforms = ps
        rw [markRunning_bundle]
        exact hplat)
    refine ⟨htail.1, ?_, ?_, ?_, ?_⟩
    · rw [htail.2.1]
      unfold completeStep
      rw [getD_updateAt_eq _ 3 _ dfltStep h3len]
    · rw [htail.2.1]
      unfold completeStep
      rw [getD_updateAt_eq _ 3 _ dfltStep h3len]
    · rw [htail.2.1]
      unfold completeStep
      rw [getD_updateAt_eq _ 3 _ dfltStep h3len]
    · rw [htail.2.2]
      rfl
  | succ n ih =>
    intro index st hfuel hle hlen htopic hplat
    have hlt : index < 3 := by omega
    have hidx6 : index < 6 := by omega
    rw [STEP_ORDER_drop index hidx6]
    rw [runLoop_cons_exec env options 0 (stepAt index) _ index st (by simp)]
    obtain ⟨out, hout⟩ := hok03 index hlt (markRunning st index).bundle
      (by rw [markRunning_bundle]; exact htopic)
      (by rw [markRunning_bundle]; exact hplat)
    rw [hout]
    exact ih (index + 1) (completeStep (markRunning st index) index out)
      (by omega) (by omega)
      (by rw [completeStep_length, markRunning_length, hlen])
      (by
        show out.bundle.topic = t
        rw [runStage_ok_topic env options (stepAt index) (markRunning st index).bundle
          out hout, markRunning_bundle]
        exact htopic)
      (by
        show out.bundle.platforms = ps
        rw [runStage_ok_platforms env options (stepAt index) (markRunning st index).bundle
          out hout, markRunning_bundle]
        exact hplat)

/-- C7: with `generateAsset = false`, the assets stage short-circuits to the
skip sentinel: the assets step completes with provider `"skipped"` and an
always-passing validation, the bundle's assets record carries an empty
`imageUrl`, and the run still completes when every other stage succeeds. -/
theorem C7_assets_skipped (env : StageEnv) (options : WorkflowRunOptions)
    (hga : options.generateAsset = some false)
    (hok03 : ∀ j, j < 3 → ∀ b,
      b.topic = (overlayBundle options (buildBaseBundle options)).topic →
      b.platforms = (overlayBundle options (buildBaseBundle options)).platforms →
      ∃ out, runStage env options (stepAt j) b = .ok out)
    (hok46 : ∀ j, 4 ≤ j → j < 6 → ∀ b,
      b.topic = (overlayBundle options (buildBaseBundle options)).topic →
      b.platforms = (overlayBundle options (buildBaseBundle options)).platforms →
      ∃ out, runStage env options (stepAt j) b = .ok out) :
    (executeWorkflowRun env options none).result.status = .COMPLETED
    ∧ ((executeWorkflowRun env options none).result.steps.getD 3 dfltStep).status = .COMPLETED
    ∧ ((executeWorkflowRun env options none).result.steps.getD 3 dfltStep).provider
        = some "skipped"
    ∧ ((executeWorkflowRun env options none).result.steps.getD 3 dfltStep).validation
        = some (verifyAssetResult "skipped://asset" "skipped")
    ∧ (verifyAssetResult "skipped://asset" "skipped").ok = true
    ∧ (executeWorkflowRun env options none).result.bundle.assets
        = some { imageUrl := "", provider := "skipped"
                 note := some "asset step skipped by workflow option" } := by
  rw [executeWorkflowRun_fresh]
  have h := runLoop_skipAssets env options
    (overlayBundle options (buildBaseBundle options)).topic
    (overlayBundle options (buildBaseBundle options)).platforms
    (by rw [hga]; simp)
    hok03 hok46 3 0
    { steps := initSteps none
      bundle := overlayBundle options (buildBaseBundle options)
      time := 0 }
    (by norm_num) (by norm_num) initSteps_none_length rfl rfl
  rw [List.drop_zero] at h
  exact ⟨h.1, h.2.1, h.2.2.1, h.2.2.2.1, by decide, h.2.2.2.2⟩

set_option maxRecDepth 8000 in
/-- C7 witness: a concrete fresh run with `generateAsset = false` and every
outbound call succeeding. -/
theorem C7_witness :
    (executeWorkflowRun envAllCallsSucceed optsNoAsset none).result.status = .COMPLETED
    ∧ ((executeWorkflowRun envAllCallsSucceed optsNoAsset none).result.steps.getD 3
        dfltStep).provider = some "skipped"
    ∧ (executeWorkflowRun envAllCallsSucceed optsNoAsset none).result.bundle.assets
        = some { imageUrl := "", provider := "skipped"
                 note := some "asset step skipped by workflow option" } := by
  have h := C7_assets_skipped envAllCallsSucceed optsNoAsset rfl
    (by
      intro j hj b hb hp
      interval_cases j
      · exact ⟨_, by
          show runResearch envAllCallsSucceed b = _
          unfold runResearch
          rw [if_neg (by rw [hb]; decide)]
          rfl⟩
      · exact ⟨_, rfl⟩
      · exact ⟨_, by
          show runRewrite envAllCallsSucceed b = _
          unfold runRewrite
          rw [hp]
          rfl⟩)
    (by
      intro j hj4 hj6 b hb hp
      interval_cases j
      · exact ⟨_, rfl⟩
      · exact ⟨_, rfl⟩)
  exact ⟨h.1, h.2.2.1, h.2.2.2.2.2⟩

end ContentPilot
